import Mathlib

/-!
Shallow embedding of the test-quality scoring engine of this repository
(src/core/quality-rules.ts and src/core/quality-reviewer.ts).

Modeling conventions:
- JavaScript strings are modeled as `String` and scanned as `List Char`.
- JavaScript numbers are modeled exactly: counters as `Nat`, scores as `Int`,
  and the deduction arithmetic as `Rat`.  Every deduction is an integer
  multiple of one tenth (the severity multipliers are 1.0, 0.6 and 0.3 and the
  rule weights are integers), so deduction totals are computed as tenth-counts
  over `Nat` and divided by 10 in `Rat`; the quotients and the rounding used
  by the scoring formulas are exact rational arithmetic.
- The regular-expression scans of the source are implemented as deterministic
  character-list matchers.  Each matcher follows the backtracking behavior of
  the concrete pattern it embeds (noted next to the definition); global scans
  advance past each match like a sticky regex exec loop.
- A rule detector that throws is modeled by `Except`: the engine catches and
  ignores the error, which embeds the try/catch of reviewTestFile.
- File discovery, file reading, report formatting and recommendation text are
  presentation/IO layers with no bearing on the scoring data model and are not
  modeled.
-/

namespace AgentQA

-- ===========================================
-- Character classes (JavaScript regex classes)
-- ===========================================

/-- Characters matched by the JavaScript regex whitespace class. -/
def jsWs (c : Char) : Bool :=
  c == ' ' || c == '\t' || c == '\n' || c == '\r' || c.toNat == 11 || c.toNat == 12 ||
    c.toNat == 160 || c.toNat == 5760 || (8192 ≤ c.toNat && c.toNat ≤ 8202) ||
    c.toNat == 8232 || c.toNat == 8233 || c.toNat == 8239 || c.toNat == 8287 ||
    c.toNat == 12288 || c.toNat == 65279

/-- Characters matched by the JavaScript regex word class: letters, digits, underscore. -/
def jsWord (c : Char) : Bool := c.isAlpha || c.isDigit || c == '_'

/-- The single-quote character (written by code point to keep literals plain). -/
def quoteSingle : Char := Char.ofNat 39

/-- The backquote character. -/
def backQuote : Char := Char.ofNat 96

/-- The opening curly brace character. -/
def braceOpen : Char := Char.ofNat 123

/-- The closing curly brace character. -/
def braceClose : Char := Char.ofNat 125

/-- Quote class with three members: single quote, double quote, backquote. -/
def isQuote3 (c : Char) : Bool := c == quoteSingle || c == '"' || c == backQuote

/-- Quote class with two members: single quote, double quote. -/
def isQuote2 (c : Char) : Bool := c == quoteSingle || c == '"'

-- ===========================================
-- Matcher primitives over character lists
-- ===========================================

/-- Consume a literal token; return the rest of the input on success. -/
def eatToks : List Char → List Char → Option (List Char)
  | [], cs => some cs
  | _ :: _, [] => none
  | t :: ts, c :: cs => if c == t then eatToks ts cs else none

/-- Consume a literal string token. -/
def eatLit (tok : String) (cs : List Char) : Option (List Char) :=
  eatToks tok.data cs

/-- Consume zero or more whitespace characters (maximal run). -/
def eatWs0 (cs : List Char) : List Char := cs.dropWhile jsWs

/-- Consume at least one whitespace character (maximal run). -/
def eatWs1 (cs : List Char) : Option (List Char) :=
  match cs with
  | c :: rest => if jsWs c then some (rest.dropWhile jsWs) else none
  | [] => none

/-- Consume exactly the given character. -/
def eatCh (ch : Char) (cs : List Char) : Option (List Char) :=
  match cs with
  | c :: rest => if c == ch then some rest else none
  | [] => none

/-- Consume one character satisfying a predicate. -/
def eatPred (p : Char → Bool) (cs : List Char) : Option (List Char) :=
  match cs with
  | c :: rest => if p c then some rest else none
  | [] => none

/-- Consume a maximal nonempty run of characters satisfying a predicate,
returning the run and the rest. -/
def eatWhile1 (p : Char → Bool) (cs : List Char) : Option (List Char × List Char) :=
  if (cs.takeWhile p).isEmpty then none else some (cs.takeWhile p, cs.dropWhile p)

/-- Consume a maximal (possibly empty) run of characters satisfying a predicate. -/
def eatWhile0 (p : Char → Bool) (cs : List Char) : List Char × List Char :=
  (cs.takeWhile p, cs.dropWhile p)

/-- Does the pattern match starting at some position of the input
(the test method of a JavaScript regex)? -/
def anyPosMatch (m : List Char → Option (List Char)) : List Char → Bool
  | [] => (m []).isSome
  | c :: cs => (m (c :: cs)).isSome || anyPosMatch m (c :: cs).tail
-- the recursive call is on cs; written with tail to keep the equation structural

/-- Substring containment (String.prototype.includes). -/
def containsToks (needle : List Char) : List Char → Bool
  | [] => needle.isEmpty
  | c :: cs => (eatToks needle (c :: cs)).isSome || containsToks needle cs

/-- Substring containment for a string needle. -/
def containsStr (needle : String) (cs : List Char) : Bool := containsToks needle.data cs

/-- Rest of the input after the first position where the matcher succeeds
(used for lazy quantifier segments: everything up to and including the first match). -/
def findRest (m : List Char → Option (List Char)) : List Char → Option (List Char)
  | [] => m []
  | c :: cs => ((m (c :: cs)).orElse fun _ => findRest m cs)

/-- Global scan: at each index try the matcher; on a match record its index and
payload and resume after the matched text, otherwise advance one character.
The first argument is a skip counter for characters still belonging to the last
match (kept structural so the kernel can evaluate it). -/
def scanA (m : List Char → Option (α × List Char)) : Nat → Nat → List Char → List (Nat × α)
  | Nat.succ k, i, _ :: cs => scanA m k (i + 1) cs
  | _, _, [] => []
  | 0, i, c :: cs =>
    match m (c :: cs) with
    | some (a, rest) => (i, a) :: scanA m (cs.length + 1 - rest.length - 1) (i + 1) cs
    | none => scanA m 0 (i + 1) cs

/-- Number of global matches of a pattern (String.prototype.match with the g flag,
counting the match list length). -/
def countMatches (m : List Char → Option (List Char)) (cs : List Char) : Nat :=
  (scanA (fun l => (m l).map fun r => ((), r)) 0 0 cs).length

/-- String.prototype.split by a regex: the segments between global matches. -/
def splitByMatch (m : List Char → Option (List Char)) : Nat → List Char → List (List Char)
  | Nat.succ k, _ :: cs => splitByMatch m k cs
  | _, [] => [[]]
  | 0, c :: cs =>
    match m (c :: cs) with
    | some rest => [] :: splitByMatch m (cs.length + 1 - rest.length - 1) cs
    | none =>
      match splitByMatch m 0 cs with
      | s :: ss => (c :: s) :: ss
      | [] => [[c]]

/-- Pair a matcher result with the matched text (match index 0 of the regex). -/
def withText (m : List Char → Option (α × List Char)) (cs : List Char) :
    Option ((α × String) × List Char) :=
  match m cs with
  | some (a, rest) => some ((a, String.mk (cs.take (cs.length - rest.length))), rest)
  | none => none

/-- Global scan for patterns anchored at the string start or right after a
newline (the caret-or-newline group of the shared-state rule): the newline is
part of the match.  This function handles the after-newline positions. -/
def scanNl (m : List Char → Option (α × List Char)) : Nat → Nat → List Char → List (Nat × α)
  | Nat.succ k, i, _ :: cs => scanNl m k (i + 1) cs
  | _, _, [] => []
  | 0, i, c :: cs =>
    if c == '\n' then
      match m cs with
      | some (a, rest) => (i, a) :: scanNl m (cs.length - rest.length) (i + 1) cs
      | none => scanNl m 0 (i + 1) cs
    else scanNl m 0 (i + 1) cs

/-- Full scan for caret-or-newline anchored patterns: try the bare pattern at
index 0, then the newline-prefixed pattern at every later position. -/
def scanStartOrNl (m : List Char → Option (α × List Char)) (cs : List Char) : List (Nat × α) :=
  match m cs with
  | some (a, rest) => (0, a) :: scanNl m (cs.length - rest.length) 0 cs
  | none => scanNl m 0 0 cs

/-- Global scan passing the reversed prefix before the match position to the
matcher (needed for the negative lookbehinds of the async-without-await rule). -/
def scanCtx (m : List Char → List Char → Option (α × List Char)) :
    Nat → Nat → List Char → List Char → List (Nat × α)
  | Nat.succ k, i, prev, c :: cs => scanCtx m k (i + 1) (c :: prev) cs
  | _, _, _, [] => []
  | 0, i, prev, c :: cs =>
    match m prev (c :: cs) with
    | some (a, rest) => (i, a) :: scanCtx m (cs.length + 1 - rest.length - 1) (i + 1) (c :: prev) cs
    | none => scanCtx m 0 (i + 1) (c :: prev) cs

/-- Existence scan inside a brace-free run: does the alternation match at some
split point of the maximal run of non-closing-brace characters?  The probe may
read past the end of the run. -/
def scanRunExists (alt : List Char → Bool) : List Char → Bool
  | [] => alt []
  | c :: cs => alt (c :: cs) || (if c == braceClose then false else scanRunExists alt cs)

/-- The prefix of the input before the first occurrence of the needle
(String.prototype.split by a plain string, first segment). -/
def beforeFirst (needle : List Char) : List Char → List Char
  | [] => []
  | c :: cs =>
    if (eatToks needle (c :: cs)).isSome then [] else c :: beforeFirst needle cs

/-- Remove the first occurrence of the needle (String.prototype.replace with a
string pattern and empty replacement). -/
def replaceFirst (needle : List Char) : List Char → List Char
  | [] => []
  | c :: cs =>
    match eatToks needle (c :: cs) with
    | some rest => rest
    | none => c :: replaceFirst needle cs

/-- Try `f n`, `f (n-1)`, ..., `f 0` and return the first success (used to
implement greedy backtracking priority: longest candidate first). -/
def findSomeDesc (f : Nat → Option α) : Nat → Option α
  | 0 => f 0
  | Nat.succ n => (f (Nat.succ n)).orElse fun _ => findSomeDesc f n

-- ===========================================
-- Line bookkeeping (quality-rules.ts helpers)
-- ===========================================

/-- quality-rules.ts findLineNumber: 1-based line of a character index. -/
def findLineNumber (cs : List Char) (index : Nat) : Nat :=
  ((cs.take index).filter (fun c => c == '\n')).length + 1

/-- Split on newline characters (String.prototype.split by a newline). -/
def splitOnNl : List Char → List (List Char)
  | [] => [[]]
  | c :: cs =>
    if c == '\n' then [] :: splitOnNl cs
    else
      match splitOnNl cs with
      | l :: ls => (c :: l) :: ls
      | [] => [[c]]

/-- String.prototype.trim on a character list. -/
def jsTrim (cs : List Char) : List Char :=
  ((cs.dropWhile jsWs).reverse.dropWhile jsWs).reverse

/-- quality-rules.ts getLineContent: the trimmed content of a 1-based line,
empty if out of range. -/
def getLineContent (cs : List Char) (lineNumber : Nat) : String :=
  match (splitOnNl cs)[lineNumber - 1]? with
  | some l => String.mk (jsTrim l)
  | none => ""

/-- Does the input start with the given string? -/
def startsWithStr (s : String) (cs : List Char) : Bool := (eatToks s.data cs).isSome

-- ===========================================
-- Data model (quality-rules.ts lines 7-34)
-- ===========================================

/-- quality-rules.ts Severity. -/
inductive Severity
  | error
  | warning
  | info
  deriving DecidableEq, Repr

/-- quality-rules.ts RuleCategory.  The seventh source category is the string
"structure", rendered here as `structureCat` because of the Lean keyword. -/
inductive RuleCategory
  | flaky
  | theater
  | overMocking
  | assertions
  | isolation
  | maintainability
  | structureCat
  deriving DecidableEq, Repr

/-- quality-rules.ts RuleViolation. -/
structure RuleViolation where
  ruleId : String
  message : String
  line : Option Nat
  column : Option Nat
  snippet : Option String
  suggestion : Option String
  deriving DecidableEq, Repr

/-- quality-rules.ts QualityRule.  A detector that throws is modeled by the
error branch of `Except`; all catalog detectors below always return `ok`. -/
structure QualityRule where
  id : String
  name : String
  description : String
  category : RuleCategory
  severity : Severity
  weight : Nat
  detect : String → String → Except String (List RuleViolation)

-- ===========================================
-- Shared sub-pattern matchers
-- ===========================================

/-- A token, optional whitespace, then an opening parenthesis. -/
def patTokenCall (tok : String) (cs : List Char) : Option (List Char) := do
  let cs ← eatLit tok cs
  let cs := eatWs0 cs
  eatCh '(' cs

/-- The token assert followed by a dot or an opening parenthesis. -/
def patAssertDotParen (cs : List Char) : Option (List Char) := do
  let cs ← eatLit "assert" cs
  eatPred (fun c => c == '.' || c == '(') cs

/-- The token should followed by a dot or an opening parenthesis. -/
def patShouldDotParen (cs : List Char) : Option (List Char) := do
  let cs ← eatLit "should" cs
  eatPred (fun c => c == '.' || c == '(') cs

/-- it-or-test, optional whitespace, an opening parenthesis. -/
def patItTestCall (cs : List Char) : Option (List Char) := do
  let cs ← (eatLit "it" cs).orElse fun _ => eatLit "test" cs
  let cs := eatWs0 cs
  eatCh '(' cs

-- ===========================================
-- Flaky test detection rules (quality-rules.ts lines 75-263)
-- ===========================================

/-- Timing pattern 1 and 2: a timer name, whitespace, an argument without
commas, a comma, whitespace, digits, a closing parenthesis. -/
def matchTimerCall (fn : String) (cs : List Char) : Option (Unit × List Char) := do
  let cs ← eatLit fn cs
  let cs := eatWs0 cs
  let cs ← eatCh '(' cs
  let (_, cs) ← eatWhile1 (fun c => !(c == ',')) cs
  let cs ← eatCh ',' cs
  let cs := eatWs0 cs
  let (_, cs) ← eatWhile1 Char.isDigit cs
  let cs ← eatCh ')' cs
  pure ((), cs)

/-- Timing pattern 3: new Promise with a resolve-or-r arrow into setTimeout.
The alternation tries resolve first, then r, each with the full continuation. -/
def matchNewPromiseTimeout (cs : List Char) : Option (Unit × List Char) := do
  let cs ← eatLit "new" cs
  let cs ← eatWs1 cs
  let cs ← eatLit "Promise" cs
  let cs := eatWs0 cs
  let cs ← eatCh '(' cs
  let cs := eatWs0 cs
  let tail := fun (cs2 : List Char) => do
    let cs2 := eatWs0 cs2
    let cs2 ← eatLit "=>" cs2
    let cs2 := eatWs0 cs2
    let cs2 ← eatLit "setTimeout" cs2
    pure ((), cs2)
  ((eatLit "resolve" cs).bind tail).orElse fun _ => (eatLit "r" cs).bind tail

/-- Timing pattern 4: await new Promise r arrow setTimeout with r and a comma. -/
def matchAwaitPromiseTimeout (cs : List Char) : Option (Unit × List Char) := do
  let cs ← eatLit "await" cs
  let cs ← eatWs1 cs
  let cs ← eatLit "new" cs
  let cs ← eatWs1 cs
  let cs ← eatLit "Promise" cs
  let cs := eatWs0 cs
  let cs ← eatCh '(' cs
  let cs := eatWs0 cs
  let cs ← eatCh 'r' cs
  let cs := eatWs0 cs
  let cs ← eatLit "=>" cs
  let cs := eatWs0 cs
  let cs ← eatLit "setTimeout" cs
  let cs := eatWs0 cs
  let cs ← eatCh '(' cs
  let cs := eatWs0 cs
  let cs ← eatCh 'r' cs
  let cs := eatWs0 cs
  let cs ← eatCh ',' cs
  pure ((), cs)

/-- The four timing patterns, in source order (quality-rules.ts lines 87-92). -/
def timingPatterns : List (List Char → Option (Unit × List Char)) :=
  [matchTimerCall "setTimeout", matchTimerCall "setInterval",
   matchNewPromiseTimeout, matchAwaitPromiseTimeout]

/-- flaky/timing-dependency detect (quality-rules.ts lines 83-107). -/
def timingDependencyDetect (content : String) (_filename : String) :
    Except String (List RuleViolation) :=
  let cs := content.data
  Except.ok <| timingPatterns.flatMap fun pattern =>
    (scanA pattern 0 0 cs).map fun m =>
      let line := findLineNumber cs m.1
      { ruleId := "flaky/timing-dependency"
        message := "Avoid hardcoded delays in tests. Use fake timers or waitFor utilities."
        line := some line
        column := none
        snippet := some (getLineContent cs line)
        suggestion := some "Use vi.useFakeTimers() or jest.useFakeTimers(), or use waitFor/waitForExpect patterns." }

/-- Random-data pattern: Math.random with empty call parentheses. -/
def matchMathRandom (cs : List Char) : Option (Unit × List Char) := do
  let cs ← eatLit "Math.random" cs
  let cs := eatWs0 cs
  let cs ← eatCh '(' cs
  let cs ← eatCh ')' cs
  pure ((), cs)

/-- Random-data pattern: crypto.randomUUID with empty call parentheses. -/
def matchCryptoRandomUUID (cs : List Char) : Option (Unit × List Char) := do
  let cs ← eatLit "crypto.randomUUID" cs
  let cs := eatWs0 cs
  let cs ← eatCh '(' cs
  let cs ← eatCh ')' cs
  pure ((), cs)

/-- Random-data pattern: uuid with empty call parentheses. -/
def matchUuidCall (cs : List Char) : Option (Unit × List Char) := do
  let cs ← eatLit "uuid" cs
  let cs := eatWs0 cs
  let cs ← eatCh '(' cs
  let cs ← eatCh ')' cs
  pure ((), cs)

/-- Random-data pattern: faker dot a word run. -/
def matchFakerMember (cs : List Char) : Option (Unit × List Char) := do
  let cs ← eatLit "faker." cs
  let (_, cs) ← eatWhile1 jsWord cs
  pure ((), cs)

/-- Random-data pattern: Date.now with empty call parentheses. -/
def matchDateNow (cs : List Char) : Option (Unit × List Char) := do
  let cs ← eatLit "Date.now" cs
  let cs := eatWs0 cs
  let cs ← eatCh '(' cs
  let cs ← eatCh ')' cs
  pure ((), cs)

/-- Random-data pattern: new Date with whitespace-only call parentheses. -/
def matchNewDate (cs : List Char) : Option (Unit × List Char) := do
  let cs ← eatLit "new" cs
  let cs ← eatWs1 cs
  let cs ← eatLit "Date" cs
  let cs := eatWs0 cs
  let cs ← eatCh '(' cs
  let cs := eatWs0 cs
  let cs ← eatCh ')' cs
  pure ((), cs)

/-- The six random-data patterns, in source order (quality-rules.ts lines 120-127). -/
def randomPatterns : List (List Char → Option (Unit × List Char)) :=
  [matchMathRandom, matchCryptoRandomUUID, matchUuidCall,
   matchFakerMember, matchDateNow, matchNewDate]

/-- flaky/random-data detect (quality-rules.ts lines 117-147).  The seed check
is a containment test on the whole content, so it is hoisted out of the loop. -/
def randomDataDetect (content : String) (_filename : String) :
    Except String (List RuleViolation) :=
  let cs := content.data
  let hasSeed := containsStr "faker.seed" cs || containsStr "Math.seedrandom" cs
  Except.ok <|
    if hasSeed then []
    else
      randomPatterns.flatMap fun pattern =>
        (scanA (withText pattern) 0 0 cs).map fun m =>
          let line := findLineNumber cs m.1
          { ruleId := "flaky/random-data"
            message := "Random/dynamic value \"" ++ m.2.2 ++ "\" can cause flaky tests."
            line := some line
            column := none
            snippet := some (getLineContent cs line)
            suggestion := some "Use seeded random generators or fixed test data. For dates, mock Date.now()." }

/-- The two negative lookbehinds of the async-without-await rule: there must be
no match of await-then-whitespace or return-then-whitespace ending right before
the position.  Because the keywords end in a non-whitespace character, the only
candidate is the full whitespace run directly before the position. -/
def notAfterAwaitOrReturn (prev : List Char) : Bool :=
  let wsRun := prev.takeWhile jsWs
  let beforeWs := prev.dropWhile jsWs
  if wsRun.isEmpty then true
  else
    !((eatToks ("await".data.reverse) beforeWs).isSome ||
      (eatToks ("return".data.reverse) beforeWs).isSome)

/-- Async pattern 1: fetch call not preceded by await or return. -/
def matchFetchNoAwait (prev cs : List Char) : Option (Unit × List Char) := do
  if notAfterAwaitOrReturn prev then
    let cs ← patTokenCall "fetch" cs
    pure ((), cs)
  else none

/-- Async pattern 2: an axios member call not preceded by await or return. -/
def matchAxiosNoAwait (prev cs : List Char) : Option (Unit × List Char) := do
  if notAfterAwaitOrReturn prev then
    let cs ← eatLit "axios." cs
    let (_, cs) ← eatWhile1 jsWord cs
    let cs := eatWs0 cs
    let cs ← eatCh '(' cs
    pure ((), cs)
  else none

/-- Async pattern 3: a then call followed (across whitespace, at most one
semicolon, and a mandatory newline after the semicolon) by expect. -/
def matchThenExpect (cs : List Char) : Option (Unit × List Char) := do
  let cs ← eatLit ".then" cs
  let cs := eatWs0 cs
  let cs ← eatCh '(' cs
  let (_, cs) := eatWhile0 (fun c => !(c == ')')) cs
  let cs ← eatCh ')' cs
  let (seg, cs) := eatWhile0 (fun c => jsWs c || c == ';') cs
  let semis := (seg.filter (fun c => c == ';')).length
  if semis > 1 then none
  else
    let nlOk :=
      if semis == 1 then ((seg.dropWhile fun c => !(c == ';')).drop 1).contains '\n'
      else seg.contains '\n'
    if nlOk then do
      let cs ← eatLit "expect" cs
      pure ((), cs)
    else none

/-- flaky/async-without-await detect (quality-rules.ts lines 157-187).  The
final fire-and-forget scan of the source is computed into an unused variable
and contributes no violations; it is omitted as dead code. -/
def asyncWithoutAwaitDetect (content : String) (_filename : String) :
    Except String (List RuleViolation) :=
  let cs := content.data
  let mkV := fun (idx : Nat) =>
    let line := findLineNumber cs idx
    { ruleId := "flaky/async-without-await"
      message := "Async operation may not be properly awaited."
      line := some line
      column := none
      snippet := some (getLineContent cs line)
      suggestion := some "Ensure all async operations are awaited before assertions." : RuleViolation }
  Except.ok <|
    ((scanCtx matchFetchNoAwait 0 0 [] cs).map fun m => mkV m.1) ++
    ((scanCtx matchAxiosNoAwait 0 0 [] cs).map fun m => mkV m.1) ++
    ((scanA matchThenExpect 0 0 cs).map fun m => mkV m.1)

/-- Shared-state pattern body (after the start-or-newline anchor): whitespace,
let or var, whitespace, a word, optional whitespace, an equals sign, a nonempty
run without semicolons, a semicolon, then a lookahead that one of the suite
tokens occurs somewhere later. -/
def matchSharedStateBody (cs : List Char) : Option (Unit × List Char) := do
  let cs := eatWs0 cs
  let cs ← (eatLit "let" cs).orElse fun _ => eatLit "var" cs
  let cs ← eatWs1 cs
  let (_, cs) ← eatWhile1 jsWord cs
  let cs := eatWs0 cs
  let cs ← eatCh '=' cs
  let (_, cs) ← eatWhile1 (fun c => !(c == ';')) cs
  let cs ← eatCh ';' cs
  if containsStr "beforeEach" cs || containsStr "beforeAll" cs || containsStr "it" cs ||
      containsStr "test" cs || containsStr "describe" cs then
    pure ((), cs)
  else none

/-- flaky/shared-state detect (quality-rules.ts lines 196-217). -/
def sharedStateDetect (content : String) (_filename : String) :
    Except String (List RuleViolation) :=
  let cs := content.data
  Except.ok <| (scanStartOrNl matchSharedStateBody cs).filterMap fun m =>
    let line := findLineNumber cs m.1
    let snippet := getLineContent cs line
    if !(containsStr "const" snippet.data) && !(containsStr "//" snippet.data) then
      some { ruleId := "flaky/shared-state"
             message := "Mutable variable declared outside test scope may cause test interference."
             line := some line
             column := none
             snippet := some snippet
             suggestion := some "Move variable declaration inside beforeEach or individual tests, or use const." }
    else none

/-- Network-call pattern: fetch, axios, http or https (alternation in source
order, each retried with the continuation) followed by optional whitespace and
a dot or an opening parenthesis. -/
def matchNetworkCall (cs : List Char) : Option (Unit × List Char) :=
  let tail := fun (cs2 : List Char) => do
    let cs2 := eatWs0 cs2
    let cs2 ← eatPred (fun c => c == '.' || c == '(') cs2
    pure ((), cs2)
  ((eatLit "fetch" cs).bind tail).orElse fun _ =>
    ((eatLit "axios" cs).bind tail).orElse fun _ =>
      ((eatLit "http" cs).bind tail).orElse fun _ =>
        (eatLit "https" cs).bind tail

/-- flaky/network-dependency detect (quality-rules.ts lines 227-260). -/
def networkDependencyDetect (content : String) (filename : String) :
    Except String (List RuleViolation) :=
  if containsStr ".e2e." filename.data || containsStr ".integration." filename.data then
    Except.ok []
  else
    let cs := content.data
    let hasMocking := containsStr "mock" cs || containsStr "Mock" cs ||
      containsStr "nock" cs || containsStr "msw" cs || containsStr "fetchMock" cs
    let networkCalls := scanA matchNetworkCall 0 0 cs
    Except.ok <|
      if !hasMocking && !networkCalls.isEmpty then
        networkCalls.map fun m =>
          let line := findLineNumber cs m.1
          { ruleId := "flaky/network-dependency"
            message := "Real network call detected without mocking."
            line := some line
            column := none
            snippet := some (getLineContent cs line)
            suggestion := some "Use MSW, nock, or mock the HTTP client for reliable tests." }
      else []

/-- The five flaky rules (quality-rules.ts lines 75-263). -/
def flakyTestRules : List QualityRule :=
  [{ id := "flaky/timing-dependency"
     name := "Timing Dependency"
     description := "Tests that depend on specific timing are flaky"
     category := .flaky, severity := .error, weight := 8
     detect := timingDependencyDetect },
   { id := "flaky/random-data"
     name := "Random Data Without Seed"
     description := "Tests using random data without seeds are non-deterministic"
     category := .flaky, severity := .warning, weight := 6
     detect := randomDataDetect },
   { id := "flaky/async-without-await"
     name := "Async Without Await"
     description := "Async operations without proper awaiting cause race conditions"
     category := .flaky, severity := .error, weight := 9
     detect := asyncWithoutAwaitDetect },
   { id := "flaky/shared-state"
     name := "Shared Mutable State"
     description := "Tests sharing mutable state can interfere with each other"
     category := .flaky, severity := .error, weight := 8
     detect := sharedStateDetect },
   { id := "flaky/network-dependency"
     name := "Network Dependency"
     description := "Tests making real network calls are unreliable"
     category := .flaky, severity := .error, weight := 9
     detect := networkDependencyDetect }]

-- ===========================================
-- Testing theater rules (quality-rules.ts lines 269-447)
-- ===========================================

/-- The shared test-block pattern of the theater and structure rules: it or
test, an opening parenthesis, a quoted nonempty name (any of the three quote
characters on either side), a comma, an optional async keyword, a parenthesized
parameter list without closing parentheses, an arrow, and a braced body.  The
body group of the source pattern reduces to the run up to the first closing
brace: its leading piece already accepts opening braces, so the nested-brace
alternative of the group can never start, and the first closing brace of the
input closes the match.  Returns the captured name and body. -/
def matchTestBlock (cs : List Char) : Option ((String × String) × List Char) := do
  let cs ← (eatLit "it" cs).orElse fun _ => eatLit "test" cs
  let cs := eatWs0 cs
  let cs ← eatCh '(' cs
  let cs := eatWs0 cs
  let cs ← eatPred isQuote3 cs
  let (nameChars, cs) ← eatWhile1 (fun c => !(isQuote3 c)) cs
  let cs ← eatPred isQuote3 cs
  let cs := eatWs0 cs
  let cs ← eatCh ',' cs
  let cs := eatWs0 cs
  let tail := fun (cs2 : List Char) => do
    let cs2 ← eatCh '(' cs2
    let (_, cs2) := eatWhile0 (fun c => !(c == ')')) cs2
    let cs2 ← eatCh ')' cs2
    let cs2 := eatWs0 cs2
    let cs2 ← eatLit "=>" cs2
    let cs2 := eatWs0 cs2
    let cs2 ← eatCh braceOpen cs2
    let (bodyChars, cs2) := eatWhile0 (fun c => !(c == braceClose)) cs2
    let cs2 ← eatCh braceClose cs2
    pure ((String.mk nameChars, String.mk bodyChars), cs2)
  (do
    let csA ← eatLit "async" cs
    let csA := eatWs0 csA
    tail csA).orElse fun _ => tail cs

/-- The assertion probe of theater/no-assertions over a test body
(quality-rules.ts lines 291-299). -/
def bodyHasAssertion (body : List Char) : Bool :=
  anyPosMatch (patTokenCall "expect") body ||
  anyPosMatch patAssertDotParen body ||
  anyPosMatch patShouldDotParen body ||
  containsStr ".to." body ||
  containsStr ".toBe" body ||
  containsStr "toThrow" body ||
  containsStr "rejects" body ||
  containsStr "resolves" body

/-- theater/no-assertions detect (quality-rules.ts lines 277-312). -/
def noAssertionsDetect (content : String) (_filename : String) :
    Except String (List RuleViolation) :=
  let cs := content.data
  Except.ok <| (scanA matchTestBlock 0 0 cs).filterMap fun m =>
    let testName := m.2.1
    let testBody := m.2.2
    if !(bodyHasAssertion testBody.data) then
      some { ruleId := "theater/no-assertions"
             message := "Test \"" ++ testName ++ "\" has no assertions."
             line := some (findLineNumber cs m.1)
             column := none
             snippet := some ("test(\"" ++ testName ++ "\", ...)")
             suggestion := some "Add expect() calls to verify behavior, or mark as .todo() if incomplete." }
    else none

/-- Always-true pattern 1: expect true toBe true. -/
def matchExpectTrueToBeTrue (cs : List Char) : Option (Unit × List Char) := do
  let cs ← eatLit "expect" cs
  let cs := eatWs0 cs
  let cs ← eatCh '(' cs
  let cs := eatWs0 cs
  let cs ← eatLit "true" cs
  let cs := eatWs0 cs
  let cs ← eatCh ')' cs
  let cs := eatWs0 cs
  let cs ← eatLit ".toBe" cs
  let cs := eatWs0 cs
  let cs ← eatCh '(' cs
  let cs := eatWs0 cs
  let cs ← eatLit "true" cs
  let cs := eatWs0 cs
  let cs ← eatCh ')' cs
  pure ((), cs)

/-- Always-true pattern 2: expect 1 toBe 1. -/
def matchExpectOneToBeOne (cs : List Char) : Option (Unit × List Char) := do
  let cs ← eatLit "expect" cs
  let cs := eatWs0 cs
  let cs ← eatCh '(' cs
  let cs := eatWs0 cs
  let cs ← eatLit "1" cs
  let cs := eatWs0 cs
  let cs ← eatCh ')' cs
  let cs := eatWs0 cs
  let cs ← eatLit ".toBe" cs
  let cs := eatWs0 cs
  let cs ← eatCh '(' cs
  let cs := eatWs0 cs
  let cs ← eatLit "1" cs
  let cs := eatWs0 cs
  let cs ← eatCh ')' cs
  pure ((), cs)

/-- Always-true pattern 3: expect of a quoted literal toBe a quoted literal
(possibly empty literals, any of the three quote characters). -/
def matchExpectStrToBeStr (cs : List Char) : Option (Unit × List Char) := do
  let cs ← eatLit "expect" cs
  let cs := eatWs0 cs
  let cs ← eatCh '(' cs
  let cs := eatWs0 cs
  let cs ← eatPred isQuote3 cs
  let (_, cs) := eatWhile0 (fun c => !(isQuote3 c)) cs
  let cs ← eatPred isQuote3 cs
  let cs := eatWs0 cs
  let cs ← eatCh ')' cs
  let cs := eatWs0 cs
  let cs ← eatLit ".toBe" cs
  let cs := eatWs0 cs
  let cs ← eatCh '(' cs
  let cs := eatWs0 cs
  let cs ← eatPred isQuote3 cs
  let (_, cs) := eatWhile0 (fun c => !(isQuote3 c)) cs
  let cs ← eatPred isQuote3 cs
  let cs := eatWs0 cs
  let cs ← eatCh ')' cs
  pure ((), cs)

/-- Always-true pattern 4: expect of digits plus digits toBe digits. -/
def matchExpectSumToBe (cs : List Char) : Option (Unit × List Char) := do
  let cs ← eatLit "expect" cs
  let cs := eatWs0 cs
  let cs ← eatCh '(' cs
  let cs := eatWs0 cs
  let (_, cs) ← eatWhile1 Char.isDigit cs
  let cs := eatWs0 cs
  let cs ← eatCh '+' cs
  let cs := eatWs0 cs
  let (_, cs) ← eatWhile1 Char.isDigit cs
  let cs := eatWs0 cs
  let cs ← eatCh ')' cs
  let cs := eatWs0 cs
  let cs ← eatLit ".toBe" cs
  let cs := eatWs0 cs
  let cs ← eatCh '(' cs
  let cs := eatWs0 cs
  let (_, cs) ← eatWhile1 Char.isDigit cs
  let cs := eatWs0 cs
  let cs ← eatCh ')' cs
  pure ((), cs)

/-- Always-true pattern 5: assert.ok true. -/
def matchAssertOkTrue (cs : List Char) : Option (Unit × List Char) := do
  let cs ← eatLit "assert.ok" cs
  let cs := eatWs0 cs
  let cs ← eatCh '(' cs
  let cs := eatWs0 cs
  let cs ← eatLit "true" cs
  let cs := eatWs0 cs
  let cs ← eatCh ')' cs
  pure ((), cs)

/-- Always-true pattern 6: expect of a quoted word toContain a quoted
(possibly empty) word, single or double quotes. -/
def matchExpectContainLiteral (cs : List Char) : Option (Unit × List Char) := do
  let cs ← eatLit "expect" cs
  let cs := eatWs0 cs
  let cs ← eatCh '(' cs
  let cs := eatWs0 cs
  let cs ← eatPred isQuote2 cs
  let (_, cs) ← eatWhile1 jsWord cs
  let cs ← eatPred isQuote2 cs
  let cs := eatWs0 cs
  let cs ← eatCh ')' cs
  let cs := eatWs0 cs
  let cs ← eatLit ".toContain" cs
  let cs := eatWs0 cs
  let cs ← eatCh '(' cs
  let cs := eatWs0 cs
  let cs ← eatPred isQuote2 cs
  let (_, cs) := eatWhile0 jsWord cs
  let cs ← eatPred isQuote2 cs
  let cs := eatWs0 cs
  let cs ← eatCh ')' cs
  pure ((), cs)

/-- The six always-true patterns, in source order (quality-rules.ts lines 325-332). -/
def alwaysTruePatterns : List (List Char → Option (Unit × List Char)) :=
  [matchExpectTrueToBeTrue, matchExpectOneToBeOne, matchExpectStrToBeStr,
   matchExpectSumToBe, matchAssertOkTrue, matchExpectContainLiteral]

/-- theater/always-true detect (quality-rules.ts lines 322-347). -/
def alwaysTrueDetect (content : String) (_filename : String) :
    Except String (List RuleViolation) :=
  let cs := content.data
  Except.ok <| alwaysTruePatterns.flatMap fun pattern =>
    (scanA pattern 0 0 cs).map fun m =>
      let line := findLineNumber cs m.1
      { ruleId := "theater/always-true"
        message := "This assertion always passes and tests nothing meaningful."
        line := some line
        column := none
        snippet := some (getLineContent cs line)
        suggestion := some "Assert on actual function outputs, not hardcoded values." }

/-- Empty-test pattern: it or test, a quoted nonempty name, a comma, optional
async, empty parameter parentheses, an arrow, an empty braced body, a closing
parenthesis; whitespace allowed between all tokens.  Returns the name. -/
def matchEmptyTest (cs : List Char) : Option (String × List Char) := do
  let cs ← (eatLit "it" cs).orElse fun _ => eatLit "test" cs
  let cs := eatWs0 cs
  let cs ← eatCh '(' cs
  let cs := eatWs0 cs
  let cs ← eatPred isQuote3 cs
  let (nameChars, cs) ← eatWhile1 (fun c => !(isQuote3 c)) cs
  let cs ← eatPred isQuote3 cs
  let cs := eatWs0 cs
  let cs ← eatCh ',' cs
  let cs := eatWs0 cs
  let tail := fun (cs2 : List Char) => do
    let cs2 ← eatCh '(' cs2
    let cs2 := eatWs0 cs2
    let cs2 ← eatCh ')' cs2
    let cs2 := eatWs0 cs2
    let cs2 ← eatLit "=>" cs2
    let cs2 := eatWs0 cs2
    let cs2 ← eatCh braceOpen cs2
    let cs2 := eatWs0 cs2
    let cs2 ← eatCh braceClose cs2
    let cs2 := eatWs0 cs2
    let cs2 ← eatCh ')' cs2
    pure (String.mk nameChars, cs2)
  (do
    let csA ← eatLit "async" cs
    let csA := eatWs0 csA
    tail csA).orElse fun _ => tail cs

/-- theater/empty-test detect (quality-rules.ts lines 357-375). -/
def emptyTestDetect (content : String) (_filename : String) :
    Except String (List RuleViolation) :=
  let cs := content.data
  Except.ok <| (scanA matchEmptyTest 0 0 cs).map fun m =>
    { ruleId := "theater/empty-test"
      message := "Test \"" ++ m.2 ++ "\" is empty."
      line := some (findLineNumber cs m.1)
      column := none
      snippet := some ("test(\"" ++ m.2 ++ "\", () => \x7b\x7d)")
      suggestion := some "Implement the test or mark as .todo() if planned for later." }

/-- Console member call: console dot a word run, whitespace, an opening
parenthesis. -/
def patConsoleCall (cs : List Char) : Option (List Char) := do
  let cs ← eatLit "console." cs
  let (_, cs) ← eatWhile1 jsWord cs
  let cs := eatWs0 cs
  eatCh '(' cs

/-- theater/console-only detect (quality-rules.ts lines 385-412). -/
def consoleOnlyDetect (content : String) (_filename : String) :
    Except String (List RuleViolation) :=
  let cs := content.data
  Except.ok <| (scanA matchTestBlock 0 0 cs).filterMap fun m =>
    let testName := m.2.1
    let body := m.2.2.data
    let hasConsole := anyPosMatch patConsoleCall body
    let hasAssert := anyPosMatch (patTokenCall "expect") body ||
      anyPosMatch patAssertDotParen body || anyPosMatch patShouldDotParen body
    if hasConsole && !hasAssert then
      some { ruleId := "theater/console-only"
             message := "Test \"" ++ testName ++ "\" only logs to console without assertions."
             line := some (findLineNumber cs m.1)
             column := none
             snippet := some ("test(\"" ++ testName ++ "\", ...)")
             suggestion := some "Replace console.log with proper assertions." }
    else none

/-- Expect-nothing pattern 1: expect undefined then a member dot whose name is
not toBeUndefined and not toBeDefined (negative lookahead, zero width). -/
def matchExpectUndefined (cs : List Char) : Option (Unit × List Char) := do
  let cs ← eatLit "expect" cs
  let cs := eatWs0 cs
  let cs ← eatCh '(' cs
  let cs := eatWs0 cs
  let cs ← eatLit "undefined" cs
  let cs := eatWs0 cs
  let cs ← eatCh ')' cs
  let cs := eatWs0 cs
  let cs ← eatCh '.' cs
  if startsWithStr "toBeUndefined" cs || startsWithStr "toBeDefined" cs then none
  else pure ((), cs)

/-- Expect-nothing pattern 2: expect null then a member dot that is not
toBeNull and not toBe open-parenthesis null. -/
def matchExpectNull (cs : List Char) : Option (Unit × List Char) := do
  let cs ← eatLit "expect" cs
  let cs := eatWs0 cs
  let cs ← eatCh '(' cs
  let cs := eatWs0 cs
  let cs ← eatLit "null" cs
  let cs := eatWs0 cs
  let cs ← eatCh ')' cs
  let cs := eatWs0 cs
  let cs ← eatCh '.' cs
  if startsWithStr "toBeNull" cs || startsWithStr "toBe(null" cs then none
  else pure ((), cs)

/-- Expect-nothing pattern 3: an empty expect call followed by a member dot. -/
def matchExpectEmpty (cs : List Char) : Option (Unit × List Char) := do
  let cs ← eatLit "expect" cs
  let cs := eatWs0 cs
  let cs ← eatCh '(' cs
  let cs := eatWs0 cs
  let cs ← eatCh ')' cs
  let cs := eatWs0 cs
  let cs ← eatCh '.' cs
  pure ((), cs)

/-- The three expect-nothing patterns, in source order (quality-rules.ts lines 425-429). -/
def expectNothingPatterns : List (List Char → Option (Unit × List Char)) :=
  [matchExpectUndefined, matchExpectNull, matchExpectEmpty]

/-- theater/expect-nothing detect (quality-rules.ts lines 422-444). -/
def expectNothingDetect (content : String) (_filename : String) :
    Except String (List RuleViolation) :=
  let cs := content.data
  Except.ok <| expectNothingPatterns.flatMap fun pattern =>
    (scanA pattern 0 0 cs).map fun m =>
      let line := findLineNumber cs m.1
      { ruleId := "theater/expect-nothing"
        message := "Assertion on undefined/null may not test actual behavior."
        line := some line
        column := none
        snippet := some (getLineContent cs line)
        suggestion := some "Verify you are testing the right variable and behavior." }

/-- The five theater rules (quality-rules.ts lines 269-447). -/
def theaterRules : List QualityRule :=
  [{ id := "theater/no-assertions"
     name := "No Assertions"
     description := "Tests without assertions prove nothing"
     category := .theater, severity := .error, weight := 10
     detect := noAssertionsDetect },
   { id := "theater/always-true"
     name := "Always-True Assertion"
     description := "Assertions that always pass are meaningless"
     category := .theater, severity := .error, weight := 9
     detect := alwaysTrueDetect },
   { id := "theater/empty-test"
     name := "Empty Test"
     description := "Empty tests provide no coverage"
     category := .theater, severity := .error, weight := 10
     detect := emptyTestDetect },
   { id := "theater/console-only"
     name := "Console-Only Test"
     description := "Tests that only console.log without asserting"
     category := .theater, severity := .warning, weight := 7
     detect := consoleOnlyDetect },
   { id := "theater/expect-nothing"
     name := "Expect on Undefined"
     description := "Expecting on undefined/null without meaningful comparison"
     category := .theater, severity := .warning, weight := 6
     detect := expectNothingDetect }]

-- ===========================================
-- Over-mocking rules (quality-rules.ts lines 453-565)
-- ===========================================

/-- jest-or-vi (alternation in source order, each with the continuation), then
a member token, optional whitespace, an opening parenthesis. -/
def patJestViMember (member : String) (cs : List Char) : Option (List Char) :=
  let tail := fun (cs2 : List Char) => do
    let cs2 ← eatLit member cs2
    let cs2 := eatWs0 cs2
    eatCh '(' cs2
  ((eatLit "jest" cs).bind tail).orElse fun _ => (eatLit "vi" cs).bind tail

/-- Count of jest.mock calls (quality-rules.ts line 466). -/
def jestMockCount (cs : List Char) : Nat := countMatches (patTokenCall "jest.mock") cs

/-- Count of vi.mock calls (quality-rules.ts line 467). -/
def viMockCount (cs : List Char) : Nat := countMatches (patTokenCall "vi.mock") cs

/-- Count of jest or vi spyOn calls (quality-rules.ts line 468). -/
def spyOnCount (cs : List Char) : Nat := countMatches (patJestViMember ".spyOn") cs

/-- Count of jest or vi fn calls (quality-rules.ts line 469). -/
def mockFnCount (cs : List Char) : Nat := countMatches (patJestViMember ".fn") cs

/-- Count of mockImplementation calls (quality-rules.ts line 470). -/
def mockImplCount (cs : List Char) : Nat := countMatches (patTokenCall ".mockImplementation") cs

/-- Total mock registrations: the sum of the five counters (quality-rules.ts line 473). -/
def totalMockCount (cs : List Char) : Nat :=
  jestMockCount cs + viMockCount cs + spyOnCount cs + mockFnCount cs + mockImplCount cs

/-- Count of expect calls (quality-rules.ts line 476). -/
def expectCallCount (cs : List Char) : Nat := countMatches (patTokenCall "expect") cs

/-- mock/excessive-mocking detect (quality-rules.ts lines 461-489). -/
def excessiveMockingDetect (content : String) (_filename : String) :
    Except String (List RuleViolation) :=
  let cs := content.data
  let totalMocks := totalMockCount cs
  let assertionCount := expectCallCount cs
  Except.ok <|
    if totalMocks > 5 && totalMocks > assertionCount * 2 then
      [{ ruleId := "mock/excessive-mocking"
         message := "File has " ++ toString totalMocks ++ " mocks but only " ++
           toString assertionCount ++ " assertions. Possible over-mocking."
         line := some 1
         column := none
         snippet := none
         suggestion := some "Consider testing with fewer mocks. Each mock reduces test confidence." }]
    else []

/-- The from clause of the import pattern: whitespace, from, whitespace, a
single- or double-quoted nonempty module path.  Returns the captured path. -/
def matchFromClause (cs : List Char) : Option (String × List Char) := do
  let cs ← eatWs1 cs
  let cs ← eatLit "from" cs
  let cs ← eatWs1 cs
  let cs ← eatPred isQuote2 cs
  let (path, cs) ← eatWhile1 (fun c => !(isQuote2 c)) cs
  let cs ← eatPred isQuote2 cs
  pure (String.mk path, cs)

/-- The import pattern: import, whitespace, any run (the dot-star cannot cross
a newline), whitespace, from, a quoted path.  The engine prefers the longest
whitespace run and then the longest dot-star run, so candidates are tried in
descending order of both. -/
def matchImport (cs : List Char) : Option (String × List Char) := do
  let cs1 ← eatLit "import" cs
  let maxW := (cs1.takeWhile jsWs).length
  if maxW == 0 then none
  else
    findSomeDesc (fun k =>
      let afterW := cs1.drop (k + 1)
      let lineLen := (afterW.takeWhile (fun c => !(c == '\n'))).length
      findSomeDesc (fun e => matchFromClause (afterW.drop e)) lineLen) (maxW - 1)

/-- jest-or-vi mock of a quoted module path; returns the captured path. -/
def matchMockModule (cs : List Char) : Option (String × List Char) :=
  let tail := fun (cs2 : List Char) => do
    let cs2 ← eatLit ".mock" cs2
    let cs2 := eatWs0 cs2
    let cs2 ← eatCh '(' cs2
    let cs2 := eatWs0 cs2
    let cs2 ← eatPred isQuote2 cs2
    let (path, cs2) ← eatWhile1 (fun c => !(isQuote2 c)) cs2
    let cs2 ← eatPred isQuote2 cs2
    pure (String.mk path, cs2)
  ((eatLit "jest" cs).bind tail).orElse fun _ => (eatLit "vi" cs).bind tail

/-- mock/mocking-what-you-test detect (quality-rules.ts lines 498-529). -/
def mockingWhatYouTestDetect (content : String) (_filename : String) :
    Except String (List RuleViolation) :=
  let cs := content.data
  let relativeImports := ((scanA matchImport 0 0 cs).map fun m => m.2).filter fun i =>
    startsWithStr "./" i.data || startsWithStr "../" i.data
  let mockMatches := scanA (withText matchMockModule) 0 0 cs
  Except.ok <| mockMatches.filterMap fun m =>
    let mockedPath := m.2.1
    if relativeImports.any (fun imp =>
        imp == mockedPath ||
        mockedPath.data.isSuffixOf imp.data ||
        (replaceFirst "./".data imp.data).isSuffixOf mockedPath.data) then
      some { ruleId := "mock/mocking-what-you-test"
             message := "Mocking \"" ++ mockedPath ++ "\" which appears to be the module under test."
             line := some (findLineNumber cs m.1)
             column := none
             snippet := some m.2.2
             suggestion := some "Mock dependencies, not the code you are testing." }
    else none

/-- Fixed mock return pattern: mockReturnValue with a nonempty argument. -/
def matchMockReturnValue (cs : List Char) : Option (Unit × List Char) := do
  let cs ← eatLit ".mockReturnValue" cs
  let cs := eatWs0 cs
  let cs ← eatCh '(' cs
  let (_, cs) ← eatWhile1 (fun c => !(c == ')')) cs
  let cs ← eatCh ')' cs
  pure ((), cs)

/-- mock/mock-return-ignores-input detect (quality-rules.ts lines 538-563).
The mockImplementation scan of the source is computed but never used in the
condition, so it is omitted as dead code. -/
def mockReturnIgnoresInputDetect (content : String) (_filename : String) :
    Except String (List RuleViolation) :=
  let cs := content.data
  let fixedReturnPatterns := scanA matchMockReturnValue 0 0 cs
  Except.ok <|
    if fixedReturnPatterns.length > 3 then
      [{ ruleId := "mock/mock-return-ignores-input"
         message := "Multiple fixed mock return values may indicate over-specification."
         line := some (match fixedReturnPatterns with
           | m :: _ => findLineNumber cs m.1
           | [] => 1)
         column := none
         snippet := none
         suggestion := some "Consider if the test is too coupled to implementation details." }]
    else []

/-- The three over-mocking rules (quality-rules.ts lines 453-565). -/
def overMockingRules : List QualityRule :=
  [{ id := "mock/excessive-mocking"
     name := "Excessive Mocking"
     description := "Over-mocking defeats the purpose of testing"
     category := .overMocking, severity := .warning, weight := 7
     detect := excessiveMockingDetect },
   { id := "mock/mocking-what-you-test"
     name := "Mocking What You Test"
     description := "Mocking the module under test defeats the purpose"
     category := .overMocking, severity := .error, weight := 9
     detect := mockingWhatYouTestDetect },
   { id := "mock/mock-return-ignores-input"
     name := "Mock Ignores Input"
     description := "Mocks that always return the same value regardless of input"
     category := .overMocking, severity := .info, weight := 3
     detect := mockReturnIgnoresInputDetect }]

-- ===========================================
-- Assertion quality rules (quality-rules.ts lines 571-660)
-- ===========================================

/-- Weak assertion pattern: expect of a nonempty argument followed by the given
matcher name with empty call parentheses. -/
def matchWeakMatcher (member : String) (cs : List Char) : Option (Unit × List Char) := do
  let cs ← eatLit "expect" cs
  let cs := eatWs0 cs
  let cs ← eatCh '(' cs
  let (_, cs) ← eatWhile1 (fun c => !(c == ')')) cs
  let cs ← eatCh ')' cs
  let cs := eatWs0 cs
  let cs ← eatLit member cs
  let cs := eatWs0 cs
  let cs ← eatCh '(' cs
  let cs ← eatCh ')' cs
  pure ((), cs)

/-- Weak assertion pattern 4: expect of a typeof expression followed by toBe. -/
def matchExpectTypeof (cs : List Char) : Option (Unit × List Char) := do
  let cs ← eatLit "expect" cs
  let cs := eatWs0 cs
  let cs ← eatCh '(' cs
  let cs ← eatLit "typeof" cs
  let cs ← eatWs1 cs
  let (_, cs) ← eatWhile1 jsWord cs
  let cs ← eatCh ')' cs
  let cs := eatWs0 cs
  let cs ← eatLit ".toBe" cs
  let cs := eatWs0 cs
  let cs ← eatCh '(' cs
  pure ((), cs)

/-- The four weak patterns with their issue texts, in source order
(quality-rules.ts lines 582-587). -/
def weakPatterns : List ((List Char → Option (Unit × List Char)) × String) :=
  [(matchWeakMatcher ".toBeTruthy", "toBeTruthy() is weak - be specific about expected value"),
   (matchWeakMatcher ".toBeFalsy", "toBeFalsy() is weak - be specific (null, undefined, false, 0?)"),
   (matchWeakMatcher ".toBeDefined", "toBeDefined() only checks existence - verify the actual value"),
   (matchExpectTypeof, "Checking type alone is weak - verify behavior")]

/-- assertion/weak-assertion detect (quality-rules.ts lines 579-602). -/
def weakAssertionDetect (content : String) (_filename : String) :
    Except String (List RuleViolation) :=
  let cs := content.data
  Except.ok <| weakPatterns.flatMap fun p =>
    (scanA p.1 0 0 cs).map fun m =>
      let line := findLineNumber cs m.1
      { ruleId := "assertion/weak-assertion"
        message := p.2
        line := some line
        column := none
        snippet := some (getLineContent cs line)
        suggestion := some "Use specific assertions like toBe(), toEqual(), or toMatchObject()." }

/-- Async test header: it or test, an argument run without commas, a comma,
whitespace, the async keyword. -/
def patAsyncTest (cs : List Char) : Option (List Char) := do
  let cs ← (eatLit "it" cs).orElse fun _ => eatLit "test" cs
  let cs := eatWs0 cs
  let cs ← eatCh '(' cs
  let (_, cs) ← eatWhile1 (fun c => !(c == ',')) cs
  let cs ← eatCh ',' cs
  let cs := eatWs0 cs
  eatLit "async" cs

/-- A catch member call start. -/
def patCatchCall (cs : List Char) : Option (List Char) := patTokenCall ".catch" cs

/-- A try block followed by catch: try, whitespace, a braced run, whitespace,
catch. -/
def patTryCatch (cs : List Char) : Option (List Char) := do
  let cs ← eatLit "try" cs
  let cs := eatWs0 cs
  let cs ← eatCh braceOpen cs
  let (_, cs) := eatWhile0 (fun c => !(c == braceClose)) cs
  let cs ← eatCh braceClose cs
  let cs := eatWs0 cs
  eatLit "catch" cs

/-- assertion/no-error-assertion detect (quality-rules.ts lines 612-633). -/
def noErrorAssertionDetect (content : String) (_filename : String) :
    Except String (List RuleViolation) :=
  let cs := content.data
  let hasAsyncTests := anyPosMatch patAsyncTest cs
  let hasErrorAssertions :=
    containsStr ".rejects." cs || containsStr "toThrow" cs ||
    anyPosMatch patCatchCall cs || anyPosMatch patTryCatch cs
  Except.ok <|
    if hasAsyncTests && !hasErrorAssertions then
      [{ ruleId := "assertion/no-error-assertion"
         message := "Async tests should include error handling verification."
         line := some 1
         column := none
         snippet := none
         suggestion := some "Add tests for error cases using .rejects.toThrow() or try/catch." }]
    else []

/-- assertion/single-assertion-syndrome detect (quality-rules.ts lines 642-658). -/
def singleAssertionSyndromeDetect (content : String) (_filename : String) :
    Except String (List RuleViolation) :=
  let cs := content.data
  let testCount := countMatches patItTestCall cs
  let assertionCount := countMatches (patTokenCall "expect") cs
  Except.ok <|
    if testCount ≥ 3 && assertionCount < testCount then
      [{ ruleId := "assertion/single-assertion-syndrome"
         message := toString testCount ++ " tests with only " ++ toString assertionCount ++
           " assertions. Some tests may be incomplete."
         line := some 1
         column := none
         snippet := none
         suggestion := some "Ensure each test has meaningful assertions." }]
    else []

/-- The three assertion rules (quality-rules.ts lines 571-660). -/
def assertionRules : List QualityRule :=
  [{ id := "assertion/weak-assertion"
     name := "Weak Assertion"
     description := "Using weak assertions that barely verify anything"
     category := .assertions, severity := .warning, weight := 5
     detect := weakAssertionDetect },
   { id := "assertion/no-error-assertion"
     name := "No Error Assertions"
     description := "Async code should verify error handling"
     category := .assertions, severity := .info, weight := 4
     detect := noErrorAssertionDetect },
   { id := "assertion/single-assertion-syndrome"
     name := "Single Assertion Per Test File"
     description := "Test file with very few assertions may be incomplete"
     category := .assertions, severity := .info, weight := 3
     detect := singleAssertionSyndromeDetect }]

-- ===========================================
-- Test isolation rules (quality-rules.ts lines 666-770)
-- ===========================================

/-- The whitespace-and-at-most-one-semicolon segment before a newline in the
shared-state-order pattern: succeeds at the first newline when at most one
semicolon precedes it within the run. -/
def segToNewlineSemis : Nat → List Char → Option (List Char)
  | semis, c :: cs =>
    if c == '\n' then (if semis ≤ 1 then some cs else none)
    else if c == ';' then segToNewlineSemis (semis + 1) cs
    else if jsWs c then segToNewlineSemis semis cs
    else none
  | _, [] => none

/-- The shared-state probe of isolation/test-order-dependency: let or var, a
word, the segment to a newline, then (lazily) beforeEach somewhere later, then
an it-or-test call later still. -/
def patSharedOrder (cs : List Char) : Option (List Char) := do
  let cs ← (eatLit "let" cs).orElse fun _ => eatLit "var" cs
  let cs ← eatWs1 cs
  let (_, cs) ← eatWhile1 jsWord cs
  let cs ← segToNewlineSemis 0 cs
  let cs ← findRest (eatLit "beforeEach") cs
  if anyPosMatch patItTestCall cs then some cs else none

/-- The assignment alternative of the modifies-in-test probe: a word run, an
equals sign, then at least one further character that is not a second equals
sign (whitespace always satisfies the final character class by backtracking). -/
def wordAssignProbe (cs : List Char) : Bool :=
  match eatWhile1 jsWord cs with
  | none => false
  | some (_, r) =>
    match eatCh '=' (eatWs0 r) with
    | none => false
    | some r2 =>
      match r2 with
      | [] => false
      | c :: _ => !(c == '=')

/-- The modifies-in-test alternation: an assignment, or a push, pop or splice
member call. -/
def modifyProbe (cs : List Char) : Bool :=
  wordAssignProbe cs || startsWithStr ".push(" cs || startsWithStr ".pop(" cs ||
    startsWithStr ".splice(" cs

/-- The modifies-in-test probe: an it-or-test arrow block whose body run
contains the modification alternation at some split point. -/
def patModifiesInTest (cs : List Char) : Option (List Char) := do
  let cs ← patItTestCall cs
  let (_, cs) := eatWhile0 (fun c => !(c == ')')) cs
  let cs ← eatCh ')' cs
  let cs := eatWs0 cs
  let cs ← eatLit "=>" cs
  let cs := eatWs0 cs
  let cs ← eatCh braceOpen cs
  if scanRunExists modifyProbe cs then some cs else none

/-- The reset alternation of the proper-reset probe: an assignment to an array
or object literal opener, or a length reset to zero. -/
def resetProbe (cs : List Char) : Bool :=
  (match eatWhile1 jsWord cs with
   | none => false
   | some (_, r) =>
     match eatCh '=' (eatWs0 r) with
     | none => false
     | some r2 => (eatPred (fun c => c == '[' || c == braceOpen) (eatWs0 r2)).isSome) ||
  (match eatLit ".length" cs with
   | none => false
   | some r =>
     match eatCh '=' (eatWs0 r) with
     | none => false
     | some r2 => (eatCh '0' (eatWs0 r2)).isSome)

/-- The proper-reset probe: a beforeEach arrow block whose body run contains
the reset alternation at some split point. -/
def patProperReset (cs : List Char) : Option (List Char) := do
  let cs ← patTokenCall "beforeEach" cs
  let (_, cs) := eatWhile0 (fun c => !(c == ')')) cs
  let cs ← eatCh ')' cs
  let cs := eatWs0 cs
  let cs ← eatLit "=>" cs
  let cs := eatWs0 cs
  let cs ← eatCh braceOpen cs
  if scanRunExists resetProbe cs then some cs else none

/-- isolation/test-order-dependency detect (quality-rules.ts lines 674-697). -/
def testOrderDependencyDetect (content : String) (_filename : String) :
    Except String (List RuleViolation) :=
  let cs := content.data
  let hasSharedState := anyPosMatch patSharedOrder cs
  let modifiesInTest := anyPosMatch patModifiesInTest cs
  Except.ok <|
    if hasSharedState && modifiesInTest then
      let hasBeforeEach := anyPosMatch (patTokenCall "beforeEach") cs
      let hasProperReset := anyPosMatch patProperReset cs
      if !hasBeforeEach || !hasProperReset then
        [{ ruleId := "isolation/test-order-dependency"
           message := "Tests may depend on execution order due to shared mutable state."
           line := some 1
           column := none
           snippet := none
           suggestion := some "Reset all shared state in beforeEach() or create fresh instances per test." }]
      else []
    else []

/-- A global modification pattern: the given prefix, a word run, optional
whitespace, an equals sign. -/
def matchGlobalWrite (pre : String) (cs : List Char) : Option (Unit × List Char) := do
  let cs ← eatLit pre cs
  let (_, cs) ← eatWhile1 jsWord cs
  let cs := eatWs0 cs
  let cs ← eatCh '=' cs
  pure ((), cs)

/-- The four global modification patterns with their messages, in source order
(quality-rules.ts lines 709-714). -/
def globalModPatterns : List ((List Char → Option (Unit × List Char)) × String) :=
  [(matchGlobalWrite "process.env.", "Modifying process.env"),
   (matchGlobalWrite "global.", "Modifying global object"),
   (matchGlobalWrite "window.", "Modifying window object"),
   (matchGlobalWrite "document.", "Modifying document")]

/-- An afterEach arrow block opener. -/
def patAfterEachArrowBrace (cs : List Char) : Option (List Char) := do
  let cs ← patTokenCall "afterEach" cs
  let (_, cs) := eatWhile0 (fun c => !(c == ')')) cs
  let cs ← eatCh ')' cs
  let cs := eatWs0 cs
  let cs ← eatLit "=>" cs
  let cs := eatWs0 cs
  eatCh braceOpen cs

/-- isolation/global-state detect (quality-rules.ts lines 706-733). -/
def globalStateDetect (content : String) (_filename : String) :
    Except String (List RuleViolation) :=
  let cs := content.data
  let hasCleanup := anyPosMatch patAfterEachArrowBrace cs
  Except.ok <| globalModPatterns.flatMap fun p =>
    (scanA p.1 0 0 cs).map fun m =>
      let line := findLineNumber cs m.1
      { ruleId := "isolation/global-state"
        message := p.2 ++ " without " ++ (if hasCleanup then "verifying" else "any") ++ " cleanup."
        line := some line
        column := none
        snippet := some (getLineContent cs line)
        suggestion := some "Restore original value in afterEach() or use vi.stubEnv()/jest.replaceProperty()." }

/-- Ordered alternation of call tokens, each with the whitespace-parenthesis
continuation. -/
def altTokensCall : List String → List Char → Option (List Char)
  | [], _ => none
  | t :: ts, cs =>
    ((eatLit t cs).bind fun cs2 => eatCh '(' (eatWs0 cs2)).orElse fun _ => altTokensCall ts cs

/-- An afterEach arrow block whose body run contains unlink or rm. -/
def patAfterEachUnlink (cs : List Char) : Option (List Char) := do
  let cs ← patAfterEachArrowBrace cs
  if scanRunExists (fun r => startsWithStr "unlink" r || startsWithStr "rm" r) cs then some cs
  else none

/-- isolation/filesystem-side-effects detect (quality-rules.ts lines 742-768). -/
def filesystemSideEffectsDetect (content : String) (_filename : String) :
    Except String (List RuleViolation) :=
  let cs := content.data
  let fsOperations := scanA
    (fun l => (altTokensCall ["writeFile", "writeFileSync", "mkdir", "mkdirSync", "appendFile"] l).map
      fun r => ((), r)) 0 0 cs
  let lower := cs.map Char.toLower
  let hasCleanup :=
    anyPosMatch (altTokensCall ["unlink", "unlinkSync", "rm", "rmSync", "rmdir"]) cs ||
    anyPosMatch patAfterEachUnlink cs ||
    containsStr "tmp" lower || containsStr "temp" lower
  Except.ok <|
    if !fsOperations.isEmpty && !hasCleanup then
      fsOperations.map fun m =>
        let line := findLineNumber cs m.1
        { ruleId := "isolation/filesystem-side-effects"
          message := "File system operation without visible cleanup."
          line := some line
          column := none
          snippet := some (getLineContent cs line)
          suggestion := some "Clean up created files in afterEach() or use temp directories." }
    else []

/-- The three isolation rules (quality-rules.ts lines 666-770). -/
def isolationRules : List QualityRule :=
  [{ id := "isolation/test-order-dependency"
     name := "Test Order Dependency"
     description := "Tests that depend on execution order are fragile"
     category := .isolation, severity := .warning, weight := 7
     detect := testOrderDependencyDetect },
   { id := "isolation/global-state"
     name := "Global State Modification"
     description := "Tests modifying global state can affect other tests"
     category := .isolation, severity := .error, weight := 8
     detect := globalStateDetect },
   { id := "isolation/filesystem-side-effects"
     name := "Filesystem Side Effects"
     description := "Tests creating files without cleanup"
     category := .isolation, severity := .warning, weight := 6
     detect := filesystemSideEffectsDetect }]

-- ===========================================
-- Maintainability rules (quality-rules.ts lines 776-954)
-- ===========================================

/-- Test name capture: it or test, an opening parenthesis, a quoted nonempty
name (any of the three quote characters). -/
def matchTestName (cs : List Char) : Option (String × List Char) := do
  let cs ← (eatLit "it" cs).orElse fun _ => eatLit "test" cs
  let cs := eatWs0 cs
  let cs ← eatCh '(' cs
  let cs := eatWs0 cs
  let cs ← eatPred isQuote3 cs
  let (nameChars, cs) ← eatWhile1 (fun c => !(isQuote3 c)) cs
  let cs ← eatPred isQuote3 cs
  pure (String.mk nameChars, cs)

/-- Case-insensitive full-name test for: test, optional whitespace, digits
(the numbered-test-name bad pattern, applied to the lowered name). -/
def matchesTestNum (l : List Char) : Bool :=
  match eatLit "test" l with
  | none => false
  | some r =>
    match eatWhile1 Char.isDigit (eatWs0 r) with
    | none => false
    | some (_, rest) => rest.isEmpty

/-- The anchored-at-end bad pattern: the name ends in function, whitespace, a
word run.  The trailing word run and whitespace run are maximal because the
keyword ends in a non-whitespace word character. -/
def endsWithFunctionWord (name : List Char) : Bool :=
  let rev := name.reverse
  match eatWhile1 jsWord rev with
  | none => false
  | some (_, r1) =>
    match eatWs1 r1 with
    | none => false
    | some r2 => (eatToks ("function".data.reverse) r2).isSome

/-- The first matching bad-name issue, in source order (quality-rules.ts
lines 792-799); the loop breaks at the first match. -/
def poorNameIssue (name : String) : Option String :=
  let lower := name.data.map Char.toLower
  if matchesTestNum lower then some "Numbered test name (test 1, test 2)"
  else if lower == "it works".data then some "Vague \"it works\" name"
  else if lower == "should work".data then some "Vague \"should work\" name"
  else if lower == "basic test".data then some "Vague \"basic test\" name"
  else if lower == "test".data then some "Just \"test\" as name"
  else if endsWithFunctionWord name.data then
    some "Name just describes what function, not behavior"
  else none

/-- maintain/poor-test-name detect (quality-rules.ts lines 784-829). -/
def poorTestNameDetect (content : String) (_filename : String) :
    Except String (List RuleViolation) :=
  let cs := content.data
  Except.ok <| (scanA matchTestName 0 0 cs).flatMap fun m =>
    let name := m.2
    let line := findLineNumber cs m.1
    let fromBadPatterns :=
      match poorNameIssue name with
      | some issue =>
        [{ ruleId := "maintain/poor-test-name"
           message := "Test name \"" ++ name ++ "\": " ++ issue ++ "."
           line := some line
           column := none
           snippet := some ("test(\"" ++ name ++ "\", ...)")
           suggestion := some "Use descriptive names like \"should return empty array when input is null\"." : RuleViolation }]
      | none => []
    let fromShortName :=
      if name.length < 5 && !(containsStr "should" name.data) then
        [{ ruleId := "maintain/poor-test-name"
           message := "Test name \"" ++ name ++ "\" is too short to be descriptive."
           line := some line
           column := none
           snippet := some ("test(\"" ++ name ++ "\", ...)")
           suggestion := some "Describe what behavior is being tested." : RuleViolation }]
      else []
    fromBadPatterns ++ fromShortName

/-- Brace-nesting fold of maintain/deeply-nested: current depth and the maximum
depth seen, updated at every character (quality-rules.ts lines 846-853). -/
def braceNesting (cs : List Char) : Int × Int :=
  cs.foldl (fun acc c =>
    let cur := if c == braceOpen then acc.1 + 1
      else if c == braceClose then acc.1 - 1 else acc.1
    (cur, max acc.2 cur)) (0, 0)

/-- maintain/deeply-nested detect (quality-rules.ts lines 839-864). -/
def deeplyNestedDetect (content : String) (_filename : String) :
    Except String (List RuleViolation) :=
  let cs := content.data
  let describeCount := countMatches (patTokenCall "describe") cs
  let maxNesting := (braceNesting cs).2
  Except.ok <|
    if describeCount > 4 && maxNesting > 8 then
      [{ ruleId := "maintain/deeply-nested"
         message := "Test file has deeply nested describe blocks."
         line := some 1
         column := none
         snippet := none
         suggestion := some "Flatten structure or split into multiple test files." }]
    else []

/-- maintain/large-test-file detect (quality-rules.ts lines 874-889). -/
def largeTestFileDetect (content : String) (_filename : String) :
    Except String (List RuleViolation) :=
  let cs := content.data
  let lines := (splitOnNl cs).length
  let testCount := countMatches patItTestCall cs
  Except.ok <|
    if lines > 500 then
      [{ ruleId := "maintain/large-test-file"
         message := "Test file is " ++ toString lines ++ " lines with " ++ toString testCount ++
           " tests. Consider splitting."
         line := some 1
         column := none
         snippet := none
         suggestion := some "Split into focused test files organized by feature or component." }]
    else []

/-- Magic-number pattern: an expect call whose toBe argument is a run of at
least three digits; returns the captured digits. -/
def matchMagicNumber (cs : List Char) : Option (String × List Char) := do
  let cs ← eatLit "expect" cs
  let cs := eatWs0 cs
  let cs ← eatCh '(' cs
  let (_, cs) ← eatWhile1 (fun c => !(c == ')')) cs
  let cs ← eatCh ')' cs
  let cs := eatWs0 cs
  let cs ← eatLit ".toBe" cs
  let cs := eatWs0 cs
  let cs ← eatCh '(' cs
  let cs := eatWs0 cs
  let (digits, cs) ← eatWhile1 Char.isDigit cs
  if digits.length < 3 then none
  else do
    let cs := eatWs0 cs
    let cs ← eatCh ')' cs
    pure (String.mk digits, cs)

/-- maintain/magic-numbers detect (quality-rules.ts lines 899-919). -/
def magicNumbersDetect (content : String) (_filename : String) :
    Except String (List RuleViolation) :=
  let cs := content.data
  Except.ok <| (scanA matchMagicNumber 0 0 cs).map fun m =>
    let line := findLineNumber cs m.1
    { ruleId := "maintain/magic-numbers"
      message := "Magic number " ++ m.2 ++ " in assertion."
      line := some line
      column := none
      snippet := some (getLineContent cs line)
      suggestion := some "Extract to a named constant that explains the expected value." }

/-- Ordered alternation of plain tokens (no continuation). -/
def altTokens : List String → List Char → Option (List Char)
  | [], _ => none
  | t :: ts, cs => (eatLit t cs).orElse fun _ => altTokens ts cs

/-- Line-commented test pattern: a double slash, whitespace, it or test or
describe, whitespace, an opening parenthesis. -/
def matchLineCommentedTest (cs : List Char) : Option (Unit × List Char) := do
  let cs ← eatLit "//" cs
  let cs := eatWs0 cs
  let cs ← altTokensCall ["it", "test", "describe"] cs
  pure ((), cs)

/-- Block-commented test pattern: a block-comment opener, lazily anything up to
the first it-or-test-or-describe call, lazily anything up to the first
block-comment closer. -/
def matchBlockCommentedTest (cs : List Char) : Option (Unit × List Char) := do
  let cs ← eatLit "/*" cs
  let cs ← findRest (altTokensCall ["it", "test", "describe"]) cs
  let cs ← findRest (eatLit "*/") cs
  pure ((), cs)

/-- maintain/commented-test detect (quality-rules.ts lines 928-952): the
line-comment matches first, then the block-comment matches. -/
def commentedTestDetect (content : String) (_filename : String) :
    Except String (List RuleViolation) :=
  let cs := content.data
  let mkV := fun (idx : Nat) =>
    let line := findLineNumber cs idx
    { ruleId := "maintain/commented-test"
      message := "Commented out test code found."
      line := some line
      column := none
      snippet := some (getLineContent cs line)
      suggestion := some "Delete commented tests or use .skip() / .todo() for temporary skipping." : RuleViolation }
  Except.ok <|
    ((scanA matchLineCommentedTest 0 0 cs).map fun m => mkV m.1) ++
    ((scanA matchBlockCommentedTest 0 0 cs).map fun m => mkV m.1)

/-- The five maintainability rules (quality-rules.ts lines 776-954). -/
def maintainabilityRules : List QualityRule :=
  [{ id := "maintain/poor-test-name"
     name := "Poor Test Name"
     description := "Test names should describe behavior, not implementation"
     category := .maintainability, severity := .info, weight := 3
     detect := poorTestNameDetect },
   { id := "maintain/deeply-nested"
     name := "Deeply Nested Tests"
     description := "Excessive nesting makes tests hard to read"
     category := .maintainability, severity := .warning, weight := 4
     detect := deeplyNestedDetect },
   { id := "maintain/large-test-file"
     name := "Large Test File"
     description := "Very large test files are hard to maintain"
     category := .maintainability, severity := .info, weight := 2
     detect := largeTestFileDetect },
   { id := "maintain/magic-numbers"
     name := "Magic Numbers in Tests"
     description := "Unexplained magic numbers reduce test clarity"
     category := .maintainability, severity := .info, weight := 2
     detect := magicNumbersDetect },
   { id := "maintain/commented-test"
     name := "Commented Out Test"
     description := "Commented tests should be deleted or fixed"
     category := .maintainability, severity := .warning, weight := 4
     detect := commentedTestDetect }]

-- ===========================================
-- Structure rules (quality-rules.ts lines 960-1071)
-- ===========================================

/-- structure/missing-describe detect (quality-rules.ts lines 968-983). -/
def missingDescribeDetect (content : String) (_filename : String) :
    Except String (List RuleViolation) :=
  let cs := content.data
  let hasDescribe := anyPosMatch (patTokenCall "describe") cs
  let hasTests := anyPosMatch patItTestCall cs
  Except.ok <|
    if hasTests && !hasDescribe then
      [{ ruleId := "structure/missing-describe"
         message := "Tests are not organized in describe blocks."
         line := some 1
         column := none
         snippet := none
         suggestion := some "Wrap related tests in describe() blocks for better organization." }]
    else []

/-- The case-insensitive arrange-act-assert comment probe, applied to the
lowered body: a double slash, whitespace, one of the section keywords. -/
def patAAAComment (cs : List Char) : Option (List Char) := do
  let cs ← eatLit "//" cs
  let cs := eatWs0 cs
  altTokens ["arrange", "act", "assert", "given", "when", "then", "setup"] cs

/-- structure/arrange-act-assert detect (quality-rules.ts lines 993-1025). -/
def arrangeActAssertDetect (content : String) (_filename : String) :
    Except String (List RuleViolation) :=
  let cs := content.data
  Except.ok <| (scanA matchTestBlock 0 0 cs).filterMap fun m =>
    let name := m.2.1
    let body := m.2.2
    if (splitOnNl body.data).length < 5 then none
    else
      let hasAAA :=
        anyPosMatch patAAAComment (body.data.map Char.toLower) ||
        containsStr "\n\n" (beforeFirst "expect".data body.data)
      if !hasAAA && body.length > 200 then
        some { ruleId := "structure/arrange-act-assert"
               message := "Test \"" ++ name ++ "\" may benefit from clearer AAA structure."
               line := some (findLineNumber cs m.1)
               column := none
               snippet := none
               suggestion := some "Add comments (// Arrange, // Act, // Assert) or blank lines to separate sections." }
      else none

/-- A closing parenthesis, whitespace, a semicolon. -/
def patCloseSemi (cs : List Char) : Option (List Char) := do
  let cs ← eatCh ')' cs
  let cs := eatWs0 cs
  eatCh ';' cs

/-- A word run, whitespace, an opening parenthesis. -/
def patWordCall (cs : List Char) : Option (List Char) := do
  let (_, cs) ← eatWhile1 jsWord cs
  let cs := eatWs0 cs
  eatCh '(' cs

/-- structure/multiple-acts detect (quality-rules.ts lines 1034-1069): split
the body by expect calls; for each later group, the code between the first
close-semicolon and the second is probed for a further call. -/
def multipleActsDetect (content : String) (_filename : String) :
    Except String (List RuleViolation) :=
  let cs := content.data
  Except.ok <| (scanA matchTestBlock 0 0 cs).filterMap fun m =>
    let name := m.2.1
    let body := m.2.2
    let expectGroups := splitByMatch (patTokenCall "expect") 0 body.data
    let actCount := (expectGroups.drop 1).countP fun seg =>
      let betweenCode :=
        match (splitByMatch patCloseSemi 0 seg)[1]? with
        | some s => s
        | none => []
      anyPosMatch patWordCall betweenCode
    if actCount ≥ 2 then
      some { ruleId := "structure/multiple-acts"
             message := "Test \"" ++ name ++ "\" appears to have multiple act phases."
             line := some (findLineNumber cs m.1)
             column := none
             snippet := none
             suggestion := some "Split into separate tests, each testing one behavior." }
    else none

/-- The three structure rules (quality-rules.ts lines 960-1071). -/
def structureRules : List QualityRule :=
  [{ id := "structure/missing-describe"
     name := "Missing Describe Block"
     description := "Tests should be organized in describe blocks"
     category := .structureCat, severity := .info, weight := 2
     detect := missingDescribeDetect },
   { id := "structure/arrange-act-assert"
     name := "Missing AAA Pattern"
     description := "Tests should follow Arrange-Act-Assert pattern"
     category := .structureCat, severity := .info, weight := 2
     detect := arrangeActAssertDetect },
   { id := "structure/multiple-acts"
     name := "Multiple Acts Per Test"
     description := "Tests with multiple acts are testing multiple things"
     category := .structureCat, severity := .warning, weight := 5
     detect := multipleActsDetect }]

-- ===========================================
-- Full catalog (quality-rules.ts lines 1077-1105)
-- ===========================================

/-- quality-rules.ts allRules: the 27 rules, concatenated in source order. -/
def allRules : List QualityRule :=
  flakyTestRules ++ theaterRules ++ overMockingRules ++ assertionRules ++
    isolationRules ++ maintainabilityRules ++ structureRules

/-- quality-rules.ts rulesByCategory. -/
def rulesByCategory : RuleCategory → List QualityRule
  | .flaky => flakyTestRules
  | .theater => theaterRules
  | .overMocking => overMockingRules
  | .assertions => assertionRules
  | .isolation => isolationRules
  | .maintainability => maintainabilityRules
  | .structureCat => structureRules

/-- quality-rules.ts categoryDescriptions. -/
def categoryDescriptions : RuleCategory → String
  | .flaky => "Flaky Test Detection - Tests that may pass or fail randomly"
  | .theater => "Testing Theater - Tests that appear to test but actually verify nothing"
  | .overMocking => "Over-Mocking - Tests that mock so much they test nothing real"
  | .assertions => "Assertion Quality - Weak or missing assertions"
  | .isolation => "Test Isolation - Tests that may interfere with each other"
  | .maintainability => "Maintainability - Tests that are hard to understand or maintain"
  | .structureCat => "Test Structure - Organization and clarity issues"

-- ===========================================
-- Reviewer data model (quality-reviewer.ts lines 25-72)
-- ===========================================

/-- quality-reviewer.ts CategoryScore.  Scores are integers after rounding;
the deduction fields carry the exact rational values of the number-typed
source fields. -/
structure CategoryScore where
  category : RuleCategory
  description : String
  score : Int
  weight : Nat
  violations : Nat
  maxDeduction : ℚ
  actualDeduction : ℚ
  deriving DecidableEq, Repr

/-- quality-reviewer.ts ReviewedFile.  The one-line display summary string
(generateFileSummary) is presentation-only and not modeled. -/
structure ReviewedFile where
  path : String
  relativePath : String
  violations : List RuleViolation
  score : Int
  scoreBreakdown : List CategoryScore
  testCount : Nat
  assertionCount : Nat
  deriving DecidableEq, Repr

/-- One entry of the topIssues list of a summary. -/
structure TopIssue where
  rule : String
  count : Nat
  severity : Severity
  deriving DecidableEq, Repr

/-- quality-reviewer.ts ReviewSummary.  The two count records are modeled as
functions from the key enumerations. -/
structure ReviewSummary where
  totalFiles : Nat
  totalTests : Nat
  totalAssertions : Nat
  totalViolations : Nat
  overallScore : Int
  scoreBreakdown : List CategoryScore
  violationsByCategory : RuleCategory → Nat
  violationsBySeverity : Severity → Nat
  topIssues : List TopIssue

/-- quality-reviewer.ts ReviewOptions (ignorePatterns belongs to file
discovery, which is not modeled). -/
structure ReviewOptions where
  rules : Option (List QualityRule) := none
  includedCategories : Option (List RuleCategory) := none
  excludedCategories : Option (List RuleCategory) := none
  minSeverity : Option Severity := none

-- ===========================================
-- Reviewer constants (quality-reviewer.ts lines 95-109)
-- ===========================================

/-- The fixed category weights (quality-reviewer.ts CATEGORY_WEIGHTS). -/
def categoryWeight : RuleCategory → Nat
  | .theater => 25
  | .flaky => 20
  | .overMocking => 15
  | .assertions => 15
  | .isolation => 10
  | .maintainability => 10
  | .structureCat => 5

/-- The key order of CATEGORY_WEIGHTS, which drives both the per-file and the
aggregate score-breakdown iteration order. -/
def categoryOrder : List RuleCategory :=
  [.theater, .flaky, .overMocking, .assertions, .isolation, .maintainability, .structureCat]

/-- The severity multipliers in tenths: the source constants are 1.0, 0.6
and 0.3 (quality-reviewer.ts SEVERITY_MULTIPLIERS). -/
def severityMultiplierTenths : Severity → Nat
  | .error => 10
  | .warning => 6
  | .info => 3

/-- The severity multipliers as exact rationals. -/
def severityMultiplier (s : Severity) : ℚ := (severityMultiplierTenths s : ℚ) / 10

/-- Math.round on an exact rational: the floor of the value plus one half
(JavaScript rounds half-up, also for negative arguments). -/
def jsRound (q : ℚ) : ℤ := Int.floor (q + 1 / 2)

-- ===========================================
-- Rule selection (quality-reviewer.ts lines 288-306)
-- ===========================================

/-- The index of a severity in the threshold order info, warning, error
(quality-reviewer.ts line 300 severityOrder indexOf). -/
def severityIndex : Severity → Nat
  | .info => 0
  | .warning => 1
  | .error => 2

/-- quality-reviewer.ts filterRules: default catalog, then inclusion (only
when the list is present and nonempty), then exclusion (same guard), then the
minimum-severity threshold (a severity string is always truthy). -/
def filterRules (options : ReviewOptions) : List QualityRule :=
  let rules := options.rules.getD allRules
  let rules :=
    match options.includedCategories with
    | some incl => if incl.length > 0 then rules.filter (fun r => incl.contains r.category) else rules
    | none => rules
  let rules :=
    match options.excludedCategories with
    | some excl => if excl.length > 0 then rules.filter (fun r => !(excl.contains r.category)) else rules
    | none => rules
  match options.minSeverity with
  | some ms => rules.filter (fun r => decide (severityIndex ms ≤ severityIndex r.severity))
  | none => rules

-- ===========================================
-- Metrics (quality-reviewer.ts lines 308-327)
-- ===========================================

/-- quality-reviewer.ts countTests: global matches of an it-or-test call. -/
def countTests (content : String) : Nat := countMatches patItTestCall content.data

/-- quality-reviewer.ts countAssertions: global matches of the expect-call,
assert and should patterns, summed. -/
def countAssertions (content : String) : Nat :=
  countMatches (patTokenCall "expect") content.data +
    countMatches patAssertDotParen content.data +
    countMatches patShouldDotParen content.data

-- ===========================================
-- Scoring (quality-reviewer.ts lines 216-282)
-- ===========================================

/-- The rule map of calculateScore: a JavaScript Map built from id-keyed
entries, so the last rule with a given id wins. -/
def ruleMapGet (rules : List QualityRule) (id : String) : Option QualityRule :=
  rules.foldl (fun acc r => if r.id == id then some r else acc) none

/-- The selected rules of one category. -/
def catRules (rules : List QualityRule) (cat : RuleCategory) : List QualityRule :=
  rules.filter (fun r => r.category == cat)

/-- maxDeduction of a category: the sum of the selected weights
(quality-reviewer.ts line 225). -/
def catMaxDeductionN (rules : List QualityRule) (cat : RuleCategory) : Nat :=
  ((catRules rules cat).map (fun r => r.weight)).sum

/-- The deduction of one violation toward one category, in tenths: the looked
up rule's weight times its severity multiplier; zero when the rule is unknown
or belongs to another category (quality-reviewer.ts lines 241-253). -/
def violationDeductionTenths (rules : List QualityRule) (v : RuleViolation)
    (cat : RuleCategory) : Nat :=
  match ruleMapGet rules v.ruleId with
  | some r => if r.category == cat then r.weight * severityMultiplierTenths r.severity else 0
  | none => 0

/-- actualDeduction of a category in tenths: summed over all violations. -/
def catDeductionTenthsN (violations : List RuleViolation) (rules : List QualityRule)
    (cat : RuleCategory) : Nat :=
  (violations.map (fun v => violationDeductionTenths rules v cat)).sum

/-- The per-category violation counter of calculateScore. -/
def catViolationCount (violations : List RuleViolation) (rules : List QualityRule)
    (cat : RuleCategory) : Nat :=
  (violations.filter (fun v =>
    match ruleMapGet rules v.ruleId with
    | some r => r.category == cat
    | none => false)).length

/-- The normalized deduction of a category: the actual deduction over the
maximum deduction, times 100; zero when no rule of the category is selected
(quality-reviewer.ts lines 260-262). -/
def normalizedDeduction (violations : List RuleViolation) (rules : List QualityRule)
    (cat : RuleCategory) : ℚ :=
  if 0 < catMaxDeductionN rules cat then
    (catDeductionTenthsN violations rules cat : ℚ) / 10 / (catMaxDeductionN rules cat : ℚ) * 100
  else 0

/-- The category score: 100 minus the normalized deduction, rounded, floored
at zero (quality-reviewer.ts line 264). -/
def catScore (violations : List RuleViolation) (rules : List QualityRule)
    (cat : RuleCategory) : Int :=
  max 0 (jsRound (100 - normalizedDeduction violations rules cat))

/-- One per-file CategoryScore record (quality-reviewer.ts lines 227-235 and
258-266). -/
def buildCategoryScore (violations : List RuleViolation) (rules : List QualityRule)
    (cat : RuleCategory) : CategoryScore :=
  { category := cat
    description := categoryDescriptions cat
    score := catScore violations rules cat
    weight := categoryWeight cat
    violations := catViolationCount violations rules cat
    maxDeduction := (catMaxDeductionN rules cat : ℚ)
    actualDeduction := (catDeductionTenthsN violations rules cat : ℚ) / 10 }

/-- The accumulated total weight of a breakdown (quality-reviewer.ts line 274). -/
def breakdownTotalWeight (scoreBreakdown : List CategoryScore) : Nat :=
  (scoreBreakdown.map (fun cs => cs.weight)).sum

/-- The accumulated weighted score sum of a breakdown (quality-reviewer.ts line 273). -/
def breakdownWeightedSum (scoreBreakdown : List CategoryScore) : Int :=
  (scoreBreakdown.map (fun cs => cs.score * (cs.weight : Int))).sum

/-- The overall weighted score over a breakdown (quality-reviewer.ts lines
268-279): the weighted sum of category scores over the total weight, rounded;
100 when the total weight is zero. -/
def overallFromBreakdown (scoreBreakdown : List CategoryScore) : Int :=
  if 0 < breakdownTotalWeight scoreBreakdown then
    jsRound ((breakdownWeightedSum scoreBreakdown : ℚ) / (breakdownTotalWeight scoreBreakdown : ℚ))
  else 100

/-- quality-reviewer.ts calculateScore: the breakdown in CATEGORY_WEIGHTS key
order and the overall weighted score. -/
def calculateScore (violations : List RuleViolation) (rules : List QualityRule) :
    Int × List CategoryScore :=
  let scoreBreakdown := categoryOrder.map (buildCategoryScore violations rules)
  (overallFromBreakdown scoreBreakdown, scoreBreakdown)

-- ===========================================
-- Per-file review (quality-reviewer.ts lines 118-157)
-- ===========================================

/-- The rule loop of reviewTestFile: run every selected rule's detector and
concatenate the violations; a detector error is caught and contributes
nothing (quality-reviewer.ts lines 127-135). -/
def runRules (rules : List QualityRule) (content filename : String) : List RuleViolation :=
  rules.flatMap fun rule =>
    match rule.detect content filename with
    | Except.ok ruleViolations => ruleViolations
    | Except.error _ => []

/-- path.basename: the final path segment. -/
def jsBasename (s : String) : String :=
  String.mk ((s.data.reverse.takeWhile (fun c => !(c == '/'))).reverse)

/-- quality-reviewer.ts reviewTestFile. -/
def reviewTestFile (content filename : String) (options : ReviewOptions) : ReviewedFile :=
  let rules := filterRules options
  let violations := runRules rules content filename
  let testCount := countTests content
  let assertionCount := countAssertions content
  let scored := calculateScore violations rules
  { path := filename
    relativePath := jsBasename filename
    violations := violations
    score := scored.1
    scoreBreakdown := scored.2
    testCount := testCount
    assertionCount := assertionCount }

-- ===========================================
-- Aggregation (quality-reviewer.ts lines 358-485)
-- ===========================================

/-- All violations of the reviewed files, in file order. -/
def allViolationsOf (files : List ReviewedFile) : List RuleViolation :=
  files.flatMap fun f => f.violations

/-- The rule lookup of generateSummary: Array.prototype.find over the global
catalog, first match (quality-reviewer.ts lines 340 and 387). -/
def findRuleFirst (id : String) : Option QualityRule :=
  allRules.find? (fun r => r.id == id)

/-- The per-category violation tally of generateSummary. -/
def violationsByCategoryCount (files : List ReviewedFile) (cat : RuleCategory) : Nat :=
  ((allViolationsOf files).filter fun v =>
    match findRuleFirst v.ruleId with
    | some r => r.category == cat
    | none => false).length

/-- The per-severity violation tally of generateSummary. -/
def violationsBySeverityCount (files : List ReviewedFile) (s : Severity) : Nat :=
  ((allViolationsOf files).filter fun v =>
    match findRuleFirst v.ruleId with
    | some r => r.severity == s
    | none => false).length

/-- Increment the count of the first entry with the given rule id. -/
def bumpFirst : List TopIssue → String → List TopIssue
  | [], _ => []
  | e :: es, id =>
    if e.rule == id then { e with count := e.count + 1 } :: es
    else e :: bumpFirst es id

/-- The Map update of the topIssues tally: bump an existing entry, else append
a fresh entry with count one (insertion order preserved). -/
def insertOrBump (acc : List TopIssue) (id : String) (sev : Severity) : List TopIssue :=
  if acc.any (fun e => e.rule == id) then bumpFirst acc id
  else acc ++ [{ rule := id, count := 1, severity := sev }]

/-- One step of the violation-count tally: skip violations whose rule id is
not in the catalog (quality-reviewer.ts lines 386-399). -/
def tallyStep (acc : List TopIssue) (v : RuleViolation) : List TopIssue :=
  match findRuleFirst v.ruleId with
  | some r => insertOrBump acc r.id r.severity
  | none => acc

/-- The topIssues tally: violation occurrences grouped by rule id, in first
occurrence order. -/
def groupViolationCounts (vs : List RuleViolation) : List TopIssue :=
  vs.foldl tallyStep []

/-- The index of a severity in the topIssues sort order error, warning, info
(quality-reviewer.ts line 406). -/
def severitySortIndex : Severity → Nat
  | .error => 0
  | .warning => 1
  | .info => 2

/-- The topIssues comparator as a total preorder: ascending severity sort
index, then descending count (quality-reviewer.ts lines 404-409). -/
def topIssueLE (a b : TopIssue) : Bool :=
  severitySortIndex a.severity < severitySortIndex b.severity ||
    (severitySortIndex a.severity == severitySortIndex b.severity && b.count ≤ a.count)

/-- The sorted, untruncated topIssues list of a set of violations (a stable
sort by the comparator, like the JavaScript engine sort). -/
def summaryTopIssuesFull (vs : List RuleViolation) : List TopIssue :=
  (groupViolationCounts vs).mergeSort topIssueLE

/-- The per-file breakdown entries of one category across all files: the
category totals tally of generateSummary keeps their score sum and their
count (quality-reviewer.ts lines 413-425). -/
def aggCatEntries (files : List ReviewedFile) (cat : RuleCategory) : List CategoryScore :=
  files.flatMap fun f => f.scoreBreakdown.filter (fun cs => cs.category == cat)

/-- The score total of the entries of one category. -/
def aggCatScoreSum (files : List ReviewedFile) (cat : RuleCategory) : Int :=
  ((aggCatEntries files cat).map (fun cs => cs.score)).sum

/-- The aggregate score of one category: the rounded mean of that category's
per-file scores, 100 when no file contributes an entry
(quality-reviewer.ts lines 413-430). -/
def aggCatScore (files : List ReviewedFile) (cat : RuleCategory) : Int :=
  if 0 < (aggCatEntries files cat).length then
    jsRound ((aggCatScoreSum files cat : ℚ) / ((aggCatEntries files cat).length : ℚ))
  else 100

/-- One aggregate CategoryScore record: the deduction fields are hard-coded to
zero in the aggregate (quality-reviewer.ts lines 432-440). -/
def aggCategoryScore (files : List ReviewedFile) (cat : RuleCategory) : CategoryScore :=
  { category := cat
    description := categoryDescriptions cat
    score := aggCatScore files cat
    weight := categoryWeight cat
    violations := violationsByCategoryCount files cat
    maxDeduction := 0
    actualDeduction := 0 }

/-- The per-file score total of the aggregate overall score. -/
def fileScoresSum (files : List ReviewedFile) : Int :=
  (files.map (fun f => f.score)).sum

/-- The aggregate overall score: the rounded mean of the per-file scores, 100
for an empty file list (quality-reviewer.ts lines 444-446). -/
def summaryOverall (files : List ReviewedFile) : Int :=
  if 0 < files.length then
    jsRound ((fileScoresSum files : ℚ) / (files.length : ℚ))
  else 100

/-- quality-reviewer.ts generateSummary. -/
def generateSummary (files : List ReviewedFile) : ReviewSummary :=
  { totalFiles := files.length
    totalTests := (files.map (fun f => f.testCount)).sum
    totalAssertions := (files.map (fun f => f.assertionCount)).sum
    totalViolations := (allViolationsOf files).length
    overallScore := summaryOverall files
    scoreBreakdown := categoryOrder.map (aggCategoryScore files)
    violationsByCategory := violationsByCategoryCount files
    violationsBySeverity := violationsBySeverityCount files
    topIssues := (summaryTopIssuesFull (allViolationsOf files)).take 10 }

/-- quality-reviewer.ts createEmptySummary: the summary returned when file
discovery finds no test files. -/
def createEmptySummary : ReviewSummary :=
  { totalFiles := 0
    totalTests := 0
    totalAssertions := 0
    totalViolations := 0
    overallScore := 0
    scoreBreakdown := []
    violationsByCategory := fun _ => 0
    violationsBySeverity := fun _ => 0
    topIssues := [] }

-- ===========================================
-- Concrete inputs and statement helpers
-- ===========================================

/-- The Scenario A input: an it call with an empty arrow body. -/
def scenarioAContent : String := "it(\x27should work\x27, () => \x7b\x7d)"

/-- A Scenario E input: six jest.mock registrations and one expect assertion. -/
def scenarioEContent : String :=
  "jest.mock(a); jest.mock(b); jest.mock(c); jest.mock(d); jest.mock(e); jest.mock(f); expect(x);"

/-- A quality rule whose detector always throws. -/
def badRuleExample : QualityRule :=
  { id := "bad/always-throws"
    name := "Always Throws"
    description := "A detector that always throws"
    category := .flaky, severity := .error, weight := 5
    detect := fun _ _ => Except.error "detector crashed" }

/-- Occurrences of a rule id among a violation list. -/
def violationCountFor (vs : List RuleViolation) (id : String) : Nat :=
  (vs.filter (fun v => v.ruleId == id)).length

/-- A selection that includes only the flaky category and then excludes it,
leaving no rules selected. -/
def emptySelection : ReviewOptions :=
  { includedCategories := some [.flaky], excludedCategories := some [.flaky] }

set_option maxRecDepth 10000

-- ===========================================
-- Evaluation and bound lemmas
-- ===========================================

/-- Evaluate a category score from its two integer ingredients. -/
theorem catScore_eval (vs : List RuleViolation) (rules : List QualityRule) (cat : RuleCategory)
    (ad md : Nat) (s : Int)
    (h1 : catMaxDeductionN rules cat = md)
    (h2 : catDeductionTenthsN vs rules cat = ad)
    (h3 : max 0 (jsRound (100 - (if 0 < md then (ad : ℚ) / 10 / (md : ℚ) * 100 else 0))) = s) :
    catScore vs rules cat = s := by
  unfold catScore normalizedDeduction
  rw [h1, h2, h3]

/-- Evaluate the overall weighted score from the score and weight pairs of the
breakdown. -/
theorem overallFromBreakdown_eval (bd : List CategoryScore) (pairs : List (Int × Nat)) (s : Int)
    (h : bd.map (fun cs => (cs.score, cs.weight)) = pairs)
    (hs : (if 0 < (pairs.map (fun p => p.2)).sum then
        jsRound (((pairs.map (fun p => p.1 * (p.2 : Int))).sum : ℚ) /
          (((pairs.map (fun p => p.2)).sum : ℕ) : ℚ))
      else 100) = s) :
    overallFromBreakdown bd = s := by
  have hw : breakdownTotalWeight bd = (pairs.map (fun p => p.2)).sum := by
    unfold breakdownTotalWeight
    rw [← h, List.map_map]
    rfl
  have hws : breakdownWeightedSum bd = (pairs.map (fun p => p.1 * (p.2 : Int))).sum := by
    unfold breakdownWeightedSum
    rw [← h, List.map_map]
    rfl
  unfold overallFromBreakdown
  rw [hw, hws, hs]

/-- Math.round is monotone. -/
theorem jsRound_le_of_le {q r : ℚ} (h : q ≤ r) : jsRound q ≤ jsRound r :=
  Int.floor_le_floor (by linarith)

/-- Math.round fixes 100. -/
theorem jsRound_100 : jsRound 100 = 100 := by
  unfold jsRound
  norm_num [Int.floor_eq_iff]

/-- Math.round of a value in the unit score interval stays in it. -/
theorem jsRound_bounds {q : ℚ} (h0 : 0 ≤ q) (h1 : q ≤ 100) :
    0 ≤ jsRound q ∧ jsRound q ≤ 100 := by
  constructor
  · exact Int.floor_nonneg.mpr (by linarith)
  · calc jsRound q ≤ jsRound 100 := jsRound_le_of_le h1
      _ = 100 := jsRound_100

/-- The normalized deduction is never negative. -/
theorem normalizedDeduction_nonneg (vs : List RuleViolation) (rules : List QualityRule)
    (cat : RuleCategory) : 0 ≤ normalizedDeduction vs rules cat := by
  unfold normalizedDeduction
  split
  · positivity
  · exact le_refl 0

/-- Every per-file category score is an integer between 0 and 100. -/
theorem catScore_bounds (vs : List RuleViolation) (rules : List QualityRule)
    (cat : RuleCategory) : 0 ≤ catScore vs rules cat ∧ catScore vs rules cat ≤ 100 := by
  unfold catScore
  refine ⟨le_max_left 0 _, max_le (by norm_num) ?_⟩
  have hnd := normalizedDeduction_nonneg vs rules cat
  calc jsRound (100 - normalizedDeduction vs rules cat) ≤ jsRound 100 :=
        jsRound_le_of_le (by linarith)
    _ = 100 := jsRound_100

/-- The weighted sum over a breakdown with scores in bounds is between 0 and
100 times the total weight. -/
theorem weighted_pairs_bounds (l : List CategoryScore)
    (h : ∀ cs ∈ l, 0 ≤ cs.score ∧ cs.score ≤ 100) :
    0 ≤ (l.map (fun cs => cs.score * (cs.weight : Int))).sum ∧
      (l.map (fun cs => cs.score * (cs.weight : Int))).sum ≤
        100 * (((l.map (fun cs => cs.weight)).sum : ℕ) : Int) := by
  induction l with
  | nil => simp
  | cons a t ih =>
    have ha := h a (List.mem_cons_self a t)
    have iht := ih (fun cs hcs => h cs (List.mem_cons_of_mem a hcs))
    simp only [List.map_cons, List.sum_cons]
    have h1 : 0 ≤ a.score * (a.weight : Int) := mul_nonneg ha.1 (Int.natCast_nonneg _)
    have h2 : a.score * (a.weight : Int) ≤ 100 * (a.weight : Int) :=
      mul_le_mul_of_nonneg_right ha.2 (Int.natCast_nonneg _)
    constructor
    · linarith [iht.1]
    · push_cast
      push_cast at iht
      linarith [iht.2]

/-- The overall weighted score is between 0 and 100 whenever the breakdown
scores are. -/
theorem overallFromBreakdown_bounds (bd : List CategoryScore)
    (h : ∀ cs ∈ bd, 0 ≤ cs.score ∧ cs.score ≤ 100) :
    0 ≤ overallFromBreakdown bd ∧ overallFromBreakdown bd ≤ 100 := by
  by_cases hpos : 0 < breakdownTotalWeight bd
  · simp only [overallFromBreakdown, if_pos hpos]
    have hw := weighted_pairs_bounds bd h
    have htw : (0 : ℚ) < ((breakdownTotalWeight bd : ℕ) : ℚ) := by exact_mod_cast hpos
    apply jsRound_bounds
    · exact div_nonneg (by exact_mod_cast hw.1) htw.le
    · rw [div_le_iff₀ htw]
      exact_mod_cast hw.2
  · simp only [overallFromBreakdown, if_neg hpos]
    exact ⟨by norm_num, le_refl _⟩

/-- Every breakdown score of a reviewed file is between 0 and 100. -/
theorem reviewTestFile_breakdown_scores (content filename : String) (options : ReviewOptions) :
    ∀ cs ∈ (reviewTestFile content filename options).scoreBreakdown,
      0 ≤ cs.score ∧ cs.score ≤ 100 := by
  intro cs hcs
  have hd : (reviewTestFile content filename options).scoreBreakdown =
      categoryOrder.map (buildCategoryScore
        (runRules (filterRules options) content filename) (filterRules options)) := rfl
  rw [hd] at hcs
  obtain ⟨cat, _, rfl⟩ := List.mem_map.mp hcs
  exact catScore_bounds _ _ cat

/-- The file score of a reviewed file is between 0 and 100. -/
theorem reviewTestFile_score_bounds (content filename : String) (options : ReviewOptions) :
    0 ≤ (reviewTestFile content filename options).score ∧
      (reviewTestFile content filename options).score ≤ 100 := by
  have hd : (reviewTestFile content filename options).score =
      overallFromBreakdown ((reviewTestFile content filename options).scoreBreakdown) := rfl
  rw [hd]
  exact overallFromBreakdown_bounds _ (reviewTestFile_breakdown_scores content filename options)

/-- A sum of integers between 0 and 100 is between 0 and 100 times the count. -/
theorem int_list_sum_bounds (xs : List Int) (hx : ∀ x ∈ xs, 0 ≤ x ∧ x ≤ 100) :
    0 ≤ xs.sum ∧ xs.sum ≤ 100 * (xs.length : Int) := by
  induction xs with
  | nil => simp
  | cons a t ih =>
    have ha := hx a (List.mem_cons_self a t)
    have iht := ih (fun x hxm => hx x (List.mem_cons_of_mem a hxm))
    simp only [List.sum_cons, List.length_cons]
    constructor
    · linarith [iht.1]
    · push_cast
      push_cast at iht
      linarith [iht.2]

/-- The rounded mean of integers between 0 and 100 is between 0 and 100. -/
theorem int_mean_jsRound_bounds (xs : List Int) (hx : ∀ x ∈ xs, 0 ≤ x ∧ x ≤ 100)
    (hpos : 0 < xs.length) :
    0 ≤ jsRound ((xs.sum : ℚ) / (xs.length : ℚ)) ∧
      jsRound ((xs.sum : ℚ) / (xs.length : ℚ)) ≤ 100 := by
  have hsum := int_list_sum_bounds xs hx
  have hl : (0 : ℚ) < ((xs.length : ℕ) : ℚ) := by exact_mod_cast hpos
  apply jsRound_bounds
  · exact div_nonneg (by exact_mod_cast hsum.1) hl.le
  · rw [div_le_iff₀ hl]
    exact_mod_cast hsum.2

/-- The aggregate overall score is between 0 and 100 whenever the per-file
scores are. -/
theorem summaryOverall_bounds (files : List ReviewedFile)
    (h : ∀ f ∈ files, 0 ≤ f.score ∧ f.score ≤ 100) :
    0 ≤ summaryOverall files ∧ summaryOverall files ≤ 100 := by
  by_cases hpos : 0 < files.length
  · simp only [summaryOverall, if_pos hpos]
    have hm : ∀ x ∈ files.map (fun f => f.score), 0 ≤ x ∧ x ≤ 100 := by
      intro x hxm
      obtain ⟨f, hf, rfl⟩ := List.mem_map.mp hxm
      exact h f hf
    have := int_mean_jsRound_bounds (files.map (fun f => f.score)) hm (by simpa using hpos)
    simpa [fileScoresSum] using this
  · simp only [summaryOverall, if_neg hpos]
    exact ⟨by norm_num, le_refl _⟩

/-- The aggregate category score is between 0 and 100 whenever the underlying
breakdown scores are. -/
theorem aggCatScore_bounds (files : List ReviewedFile) (cat : RuleCategory)
    (h : ∀ f ∈ files, ∀ cs ∈ f.scoreBreakdown, 0 ≤ cs.score ∧ cs.score ≤ 100) :
    0 ≤ aggCatScore files cat ∧ aggCatScore files cat ≤ 100 := by
  by_cases hpos : 0 < (aggCatEntries files cat).length
  · simp only [aggCatScore, if_pos hpos]
    have hm : ∀ x ∈ (aggCatEntries files cat).map (fun cs => cs.score), 0 ≤ x ∧ x ≤ 100 := by
      intro x hxm
      obtain ⟨cs, hcs, rfl⟩ := List.mem_map.mp hxm
      obtain ⟨f, hf, hcsf⟩ := List.mem_flatMap.mp hcs
      exact h f hf cs (List.mem_of_mem_filter hcsf)
    have := int_mean_jsRound_bounds ((aggCatEntries files cat).map (fun cs => cs.score)) hm
      (by simpa using hpos)
    simpa [aggCatScoreSum] using this
  · simp only [aggCatScore, if_neg hpos]
    exact ⟨by norm_num, le_refl _⟩

/-- Violations are a flat map over the selected rules; a sublist of rules
contributes a sublist of violations. -/
theorem runRules_sublist {l₁ l₂ : List QualityRule} (h : l₁.Sublist l₂)
    (content filename : String) :
    (runRules l₁ content filename).Sublist (runRules l₂ content filename) := by
  induction h with
  | slnil => simp [runRules]
  | cons a h ih =>
    refine ih.trans ?_
    simp only [runRules, List.flatMap_cons]
    exact List.sublist_append_right _ _
  | cons₂ a h ih =>
    simp only [runRules, List.flatMap_cons]
    exact ih.append_left _

-- ===========================================
-- Scenario A evaluation lemmas
-- ===========================================

/-- The per-category (category, score) pairs of the Scenario A review. -/
theorem scenarioA_breakdown :
    (reviewTestFile scenarioAContent "example.test.ts" {}).scoreBreakdown.map
      (fun cs => (cs.category, cs.score)) =
    [(RuleCategory.theater, 52), (RuleCategory.flaky, 100), (RuleCategory.overMocking, 100),
     (RuleCategory.assertions, 100), (RuleCategory.isolation, 100),
     (RuleCategory.maintainability, 94), (RuleCategory.structureCat, 93)] := by
  have vdef : (reviewTestFile scenarioAContent "example.test.ts" {}).scoreBreakdown =
      categoryOrder.map (buildCategoryScore
        (runRules allRules scenarioAContent "example.test.ts") allRules) := rfl
  rw [vdef]
  have hTheater : catScore (runRules allRules scenarioAContent "example.test.ts") allRules .theater = 52 :=
    catScore_eval _ _ _ 200 42 52 (by decide) (by decide) (by norm_num [jsRound, Int.floor_eq_iff])
  have hFlaky : catScore (runRules allRules scenarioAContent "example.test.ts") allRules .flaky = 100 :=
    catScore_eval _ _ _ 0 40 100 (by decide) (by decide) (by norm_num [jsRound, Int.floor_eq_iff])
  have hMock : catScore (runRules allRules scenarioAContent "example.test.ts") allRules .overMocking = 100 :=
    catScore_eval _ _ _ 0 19 100 (by decide) (by decide) (by norm_num [jsRound, Int.floor_eq_iff])
  have hAssert : catScore (runRules allRules scenarioAContent "example.test.ts") allRules .assertions = 100 :=
    catScore_eval _ _ _ 0 12 100 (by decide) (by decide) (by norm_num [jsRound, Int.floor_eq_iff])
  have hIso : catScore (runRules allRules scenarioAContent "example.test.ts") allRules .isolation = 100 :=
    catScore_eval _ _ _ 0 21 100 (by decide) (by decide) (by norm_num [jsRound, Int.floor_eq_iff])
  have hMaint : catScore (runRules allRules scenarioAContent "example.test.ts") allRules .maintainability = 94 :=
    catScore_eval _ _ _ 9 15 94 (by decide) (by decide) (by norm_num [jsRound, Int.floor_eq_iff])
  have hStruct : catScore (runRules allRules scenarioAContent "example.test.ts") allRules .structureCat = 93 :=
    catScore_eval _ _ _ 6 9 93 (by decide) (by decide) (by norm_num [jsRound, Int.floor_eq_iff])
  simp only [categoryOrder, List.map, buildCategoryScore]
  rw [hTheater, hFlaky, hMock, hAssert, hIso, hMaint, hStruct]

/-- The per-category (score, weight) pairs of the Scenario A review. -/
theorem scenarioA_pairs :
    (reviewTestFile scenarioAContent "example.test.ts" {}).scoreBreakdown.map
      (fun cs => (cs.score, cs.weight)) =
    [(52, 25), (100, 20), (100, 15), (100, 15), (100, 10), (94, 10), (93, 5)] := by
  have vdef : (reviewTestFile scenarioAContent "example.test.ts" {}).scoreBreakdown =
      categoryOrder.map (buildCategoryScore
        (runRules allRules scenarioAContent "example.test.ts") allRules) := rfl
  rw [vdef]
  have hTheater : catScore (runRules allRules scenarioAContent "example.test.ts") allRules .theater = 52 :=
    catScore_eval _ _ _ 200 42 52 (by decide) (by decide) (by norm_num [jsRound, Int.floor_eq_iff])
  have hFlaky : catScore (runRules allRules scenarioAContent "example.test.ts") allRules .flaky = 100 :=
    catScore_eval _ _ _ 0 40 100 (by decide) (by decide) (by norm_num [jsRound, Int.floor_eq_iff])
  have hMock : catScore (runRules allRules scenarioAContent "example.test.ts") allRules .overMocking = 100 :=
    catScore_eval _ _ _ 0 19 100 (by decide) (by decide) (by norm_num [jsRound, Int.floor_eq_iff])
  have hAssert : catScore (runRules allRules scenarioAContent "example.test.ts") allRules .assertions = 100 :=
    catScore_eval _ _ _ 0 12 100 (by decide) (by decide) (by norm_num [jsRound, Int.floor_eq_iff])
  have hIso : catScore (runRules allRules scenarioAContent "example.test.ts") allRules .isolation = 100 :=
    catScore_eval _ _ _ 0 21 100 (by decide) (by decide) (by norm_num [jsRound, Int.floor_eq_iff])
  have hMaint : catScore (runRules allRules scenarioAContent "example.test.ts") allRules .maintainability = 94 :=
    catScore_eval _ _ _ 9 15 94 (by decide) (by decide) (by norm_num [jsRound, Int.floor_eq_iff])
  have hStruct : catScore (runRules allRules scenarioAContent "example.test.ts") allRules .structureCat = 93 :=
    catScore_eval _ _ _ 6 9 93 (by decide) (by decide) (by norm_num [jsRound, Int.floor_eq_iff])
  simp only [categoryOrder, List.map, buildCategoryScore]
  rw [hTheater, hFlaky, hMock, hAssert, hIso, hMaint, hStruct]
  rfl

/-- The overall Scenario A file score. -/
theorem scenarioA_score : (reviewTestFile scenarioAContent "example.test.ts" {}).score = 87 := by
  have hdef : (reviewTestFile scenarioAContent "example.test.ts" {}).score =
      overallFromBreakdown ((reviewTestFile scenarioAContent "example.test.ts" {}).scoreBreakdown) := rfl
  rw [hdef]
  exact overallFromBreakdown_eval _
    [(52, 25), (100, 20), (100, 15), (100, 15), (100, 10), (94, 10), (93, 5)] 87
    scenarioA_pairs (by norm_num [jsRound, Int.floor_eq_iff])

-- ===========================================
-- topIssues machinery (C7)
-- ===========================================

theorem beqF {a b : String} (h : a ≠ b) : (a == b) = false := by
  simpa using h

theorem violationCountFor_append_ne (done : List RuleViolation) (v : RuleViolation)
    (id : String) (h : v.ruleId ≠ id) :
    violationCountFor (done ++ [v]) id = violationCountFor done id := by
  unfold violationCountFor
  rw [List.filter_append]
  simp [List.filter, beqF h]

theorem violationCountFor_append_eq (done : List RuleViolation) (v : RuleViolation)
    (id : String) (h : v.ruleId = id) :
    violationCountFor (done ++ [v]) id = violationCountFor done id + 1 := by
  unfold violationCountFor
  rw [List.filter_append]
  simp [List.filter, h]

theorem findRuleFirst_eq_id {id : String} {r : QualityRule} (h : findRuleFirst id = some r) :
    r.id = id := by
  have := List.find?_some h
  simpa using this

theorem bumpFirst_rules (l : List TopIssue) (id : String) :
    (bumpFirst l id).map (fun e => e.rule) = l.map (fun e => e.rule) := by
  induction l with
  | nil => rfl
  | cons x xs ih =>
    unfold bumpFirst
    split
    · simp
    · simp [ih]

theorem any_rule_congr : ∀ {l₁ l₂ : List TopIssue},
    l₁.map (fun e => e.rule) = l₂.map (fun e => e.rule) → ∀ id : String,
      l₁.any (fun e => e.rule == id) = l₂.any (fun e => e.rule == id)
  | [], [], _, _ => rfl
  | x :: xs, y :: ys, h, id => by
    simp only [List.map_cons, List.cons.injEq] at h
    simp only [List.any_cons]
    rw [h.1, any_rule_congr h.2 id]
  | [], y :: ys, h, _ => by simp at h
  | x :: xs, [], h, _ => by simp at h

theorem mem_bumpFirst {l : List TopIssue} {id : String} {e : TopIssue}
    (hp : List.Pairwise (fun a b => a.rule ≠ b.rule) l)
    (he : e ∈ bumpFirst l id) :
    (e ∈ l ∧ e.rule ≠ id) ∨
      (∃ e0 ∈ l, e0.rule = id ∧ e = { e0 with count := e0.count + 1 }) := by
  induction l with
  | nil => simp [bumpFirst] at he
  | cons x xs ih =>
    rw [List.pairwise_cons] at hp
    unfold bumpFirst at he
    split at he
    · next hx =>
      have hxid : x.rule = id := by simpa using hx
      rcases List.mem_cons.mp he with rfl | hmem
      · exact Or.inr ⟨x, List.mem_cons_self x xs, hxid, rfl⟩
      · refine Or.inl ⟨List.mem_cons_of_mem x hmem, ?_⟩
        intro hcontra
        exact (hp.1 e hmem) (by rw [hxid, hcontra])
    · next hx =>
      have hxid : x.rule ≠ id := by simpa using hx
      rcases List.mem_cons.mp he with rfl | hmem
      · exact Or.inl ⟨List.mem_cons_self _ _, hxid⟩
      · rcases ih hp.2 hmem with ⟨hin, hne⟩ | ⟨e0, he0, hrule, heq⟩
        · exact Or.inl ⟨List.mem_cons_of_mem x hin, hne⟩
        · exact Or.inr ⟨e0, List.mem_cons_of_mem x he0, hrule, heq⟩

/-- One step of the topIssues tally preserves the counting invariants. -/
theorem tallyStep_inv (acc : List TopIssue) (done : List RuleViolation) (v : RuleViolation)
    (h1 : List.Pairwise (fun a b => a.rule ≠ b.rule) acc)
    (h2 : ∀ e ∈ acc, e.count = violationCountFor done e.rule ∧
      ∃ r, findRuleFirst e.rule = some r ∧ r.severity = e.severity)
    (h3 : ∀ id, violationCountFor done id ≠ 0 → (findRuleFirst id).isSome →
      acc.any (fun e => e.rule == id) = true) :
    List.Pairwise (fun a b => a.rule ≠ b.rule) (tallyStep acc v) ∧
    (∀ e ∈ tallyStep acc v, e.count = violationCountFor (done ++ [v]) e.rule ∧
      ∃ r, findRuleFirst e.rule = some r ∧ r.severity = e.severity) ∧
    (∀ id, violationCountFor (done ++ [v]) id ≠ 0 → (findRuleFirst id).isSome →
      (tallyStep acc v).any (fun e => e.rule == id) = true) := by
  cases hfind : findRuleFirst v.ruleId with
  | none =>
    have heq : tallyStep acc v = acc := by
      unfold tallyStep
      rw [hfind]
    rw [heq]
    refine ⟨h1, ?_, ?_⟩
    · intro e he
      obtain ⟨hc, r, hr, hs⟩ := h2 e he
      have hne : v.ruleId ≠ e.rule := by
        intro hcontra
        rw [hcontra] at hfind
        rw [hfind] at hr
        exact Option.noConfusion hr
      rw [violationCountFor_append_ne done v e.rule hne]
      exact ⟨hc, r, hr, hs⟩
    · intro id hcount hsome
      have hne : v.ruleId ≠ id := by
        intro hcontra
        rw [hcontra] at hfind
        rw [hfind] at hsome
        exact Bool.noConfusion hsome
      rw [violationCountFor_append_ne done v id hne] at hcount
      exact h3 id hcount hsome
  | some r =>
    have hrid : r.id = v.ruleId := findRuleFirst_eq_id hfind
    have heq : tallyStep acc v = insertOrBump acc r.id r.severity := by
      unfold tallyStep
      rw [hfind]
    rw [heq]
    unfold insertOrBump
    by_cases hmem : acc.any (fun e => e.rule == r.id) = true
    · rw [if_pos hmem]
      refine ⟨?_, ?_, ?_⟩
      · have hpm : (acc.map (fun e => e.rule)).Pairwise (fun a b => a ≠ b) :=
          List.pairwise_map.mpr h1
        rw [← bumpFirst_rules acc r.id] at hpm
        exact List.pairwise_map.mp hpm
      · intro e he
        rcases mem_bumpFirst h1 he with ⟨hin, hne⟩ | ⟨e0, he0, hrule, heq⟩
        · obtain ⟨hc, rr, hrr, hss⟩ := h2 e hin
          have hne2 : v.ruleId ≠ e.rule := by
            rw [← hrid]
            exact fun hh => hne hh.symm
          rw [violationCountFor_append_ne done v e.rule hne2]
          exact ⟨hc, rr, hrr, hss⟩
        · obtain ⟨hc, rr, hrr, hss⟩ := h2 e0 he0
          subst heq
          constructor
          · show e0.count + 1 = violationCountFor (done ++ [v]) e0.rule
            have heq2 : v.ruleId = e0.rule := by
              rw [hrule, ← hrid]
            rw [violationCountFor_append_eq done v e0.rule heq2, hc]
          · exact ⟨rr, hrr, hss⟩
      · intro id hcount hsome
        rw [any_rule_congr (bumpFirst_rules acc r.id) id]
        by_cases hid : v.ruleId = id
        · subst hid
          rw [hrid] at hmem
          exact hmem
        · rw [violationCountFor_append_ne done v id hid] at hcount
          exact h3 id hcount hsome
    · rw [if_neg hmem]
      have hforall : ∀ e ∈ acc, e.rule ≠ r.id := by
        intro e he hcontra
        exact hmem (List.any_eq_true.mpr ⟨e, he, by simp [hcontra]⟩)
      refine ⟨?_, ?_, ?_⟩
      · apply List.pairwise_append.mpr
        refine ⟨h1, List.pairwise_singleton _ _, ?_⟩
        intro a ha b hb
        rcases List.mem_singleton.mp hb with rfl
        exact hforall a ha
      · intro e he
        rcases List.mem_append.mp he with hin | hnew
        · obtain ⟨hc, rr, hrr, hss⟩ := h2 e hin
          have hne2 : v.ruleId ≠ e.rule := by
            rw [← hrid]
            exact fun hh => (hforall e hin) hh.symm
          rw [violationCountFor_append_ne done v e.rule hne2]
          exact ⟨hc, rr, hrr, hss⟩
        · rcases List.mem_singleton.mp hnew with rfl
          constructor
          · show 1 = violationCountFor (done ++ [v]) r.id
            have hzero : violationCountFor done r.id = 0 := by
              by_contra hz
              exact hmem (h3 r.id hz (by rw [hrid, hfind]; rfl))
            rw [violationCountFor_append_eq done v r.id hrid.symm, hzero]
          · exact ⟨r, by rw [hrid]; exact hfind, rfl⟩
      · intro id hcount hsome
        rw [List.any_append]
        by_cases hid : id = r.id
        · subst hid
          simp
        · have hne2 : v.ruleId ≠ id := by
            rw [← hrid]
            exact fun hh => hid hh.symm
          rw [violationCountFor_append_ne done v id hne2] at hcount
          rw [h3 id hcount hsome]
          simp

/-- The topIssues tally fold preserves the counting invariants. -/
theorem tally_inv :
    ∀ (vs : List RuleViolation) (acc : List TopIssue) (done : List RuleViolation),
      List.Pairwise (fun a b => a.rule ≠ b.rule) acc →
      (∀ e ∈ acc, e.count = violationCountFor done e.rule ∧
        ∃ r, findRuleFirst e.rule = some r ∧ r.severity = e.severity) →
      (∀ id, violationCountFor done id ≠ 0 → (findRuleFirst id).isSome →
        acc.any (fun e => e.rule == id) = true) →
      List.Pairwise (fun a b => a.rule ≠ b.rule) (vs.foldl tallyStep acc) ∧
      (∀ e ∈ vs.foldl tallyStep acc, e.count = violationCountFor (done ++ vs) e.rule ∧
        ∃ r, findRuleFirst e.rule = some r ∧ r.severity = e.severity) ∧
      (∀ id, violationCountFor (done ++ vs) id ≠ 0 → (findRuleFirst id).isSome →
        (vs.foldl tallyStep acc).any (fun e => e.rule == id) = true)
  | [], acc, done, h1, h2, h3 => by
    simpa only [List.foldl_nil, List.append_nil] using ⟨h1, h2, h3⟩
  | v :: rest, acc, done, h1, h2, h3 => by
    have hdone : done ++ v :: rest = (done ++ [v]) ++ rest := by simp
    rw [List.foldl_cons, hdone]
    obtain ⟨g1, g2, g3⟩ := tallyStep_inv acc done v h1 h2 h3
    exact tally_inv rest (tallyStep acc v) (done ++ [v]) g1 g2 g3

/-- The grouped counts are correct: distinct rules per entry, an exact count
and the catalog severity for every entry, and an entry for every rule id with
occurrences. -/
theorem groupViolationCounts_spec (vs : List RuleViolation) :
    List.Pairwise (fun a b => a.rule ≠ b.rule) (groupViolationCounts vs) ∧
    (∀ e ∈ groupViolationCounts vs, e.count = violationCountFor vs e.rule ∧
      ∃ r, findRuleFirst e.rule = some r ∧ r.severity = e.severity) ∧
    (∀ id, violationCountFor vs id ≠ 0 → (findRuleFirst id).isSome →
      (groupViolationCounts vs).any (fun e => e.rule == id) = true) := by
  have := tally_inv vs [] []
    (List.Pairwise.nil)
    (by intro e he; exact absurd he (List.not_mem_nil e))
    (by intro id hcount _; exact absurd rfl hcount)
  simpa only [groupViolationCounts, List.nil_append] using this

theorem topIssueLE_trans (a b c : TopIssue) (hab : topIssueLE a b = true)
    (hbc : topIssueLE b c = true) : topIssueLE a c = true := by
  simp only [topIssueLE, Bool.or_eq_true, Bool.and_eq_true, decide_eq_true_eq, beq_iff_eq] at *
  omega

theorem topIssueLE_total (a b : TopIssue) : (topIssueLE a b || topIssueLE b a) = true := by
  simp only [topIssueLE, Bool.or_eq_true, Bool.and_eq_true, decide_eq_true_eq, beq_iff_eq]
  omega

-- ===========================================
-- Claim theorems
-- ===========================================

/-- C1 (counterexample): on the Scenario A input with the default catalog the
engine does not produce exactly one violation, and the overall file score is
not 94, contrary to the claim. -/
theorem claim_C1_counterexample :
    (reviewTestFile scenarioAContent "example.test.ts" {}).violations.length ≠ 1 ∧
    (reviewTestFile scenarioAContent "example.test.ts" {}).score ≠ 94 := by
  constructor
  · decide
  · rw [scenarioA_score]
    decide

/-- C1 (amended): the Scenario A review yields exactly the four violations
theater/no-assertions, theater/empty-test, maintain/poor-test-name and
structure/missing-describe; the theater category scores 52, maintainability 94,
structure 93, the other categories 100, and the overall file score is 87. -/
theorem claim_C1_amended :
    (reviewTestFile scenarioAContent "example.test.ts" {}).violations.map (fun v => v.ruleId) =
      ["theater/no-assertions", "theater/empty-test", "maintain/poor-test-name",
        "structure/missing-describe"] ∧
    (reviewTestFile scenarioAContent "example.test.ts" {}).scoreBreakdown.map
      (fun cs => (cs.category, cs.score)) =
      [(RuleCategory.theater, 52), (RuleCategory.flaky, 100), (RuleCategory.overMocking, 100),
        (RuleCategory.assertions, 100), (RuleCategory.isolation, 100),
        (RuleCategory.maintainability, 94), (RuleCategory.structureCat, 93)] ∧
    (reviewTestFile scenarioAContent "example.test.ts" {}).score = 87 :=
  ⟨by decide, scenarioA_breakdown, scenarioA_score⟩

/-- C2 (counterexample): aggregating an empty list of reviewed files yields an
overall score of 100, not 0, contrary to the claim. -/
theorem claim_C2_counterexample : (generateSummary []).overallScore ≠ 0 := by
  decide

/-- C2 (amended): the empty summary returned when discovery finds no test
files has overall score 0 and all counters zero, while the aggregator applied
to an empty list of reviewed files returns overall score 100. -/
theorem claim_C2_amended :
    createEmptySummary.overallScore = 0 ∧ createEmptySummary.totalFiles = 0 ∧
    createEmptySummary.totalTests = 0 ∧ createEmptySummary.totalAssertions = 0 ∧
    createEmptySummary.totalViolations = 0 ∧
    (∀ c, createEmptySummary.violationsByCategory c = 0) ∧
    (∀ s, createEmptySummary.violationsBySeverity s = 0) ∧
    createEmptySummary.topIssues = [] ∧
    (generateSummary []).overallScore = 100 := by
  refine ⟨rfl, rfl, rfl, rfl, rfl, fun c => rfl, fun s => rfl, rfl, ?_⟩
  decide

/-- C3: every score produced by the engine, per file, per category, aggregate,
or overall, is an integer between 0 and 100. -/
theorem claim_C3 (content filename : String) (options : ReviewOptions)
    (inputs : List (String × String)) :
    (0 ≤ (reviewTestFile content filename options).score ∧
      (reviewTestFile content filename options).score ≤ 100) ∧
    (∀ cs ∈ (reviewTestFile content filename options).scoreBreakdown,
      0 ≤ cs.score ∧ cs.score ≤ 100) ∧
    (0 ≤ (generateSummary (inputs.map fun p => reviewTestFile p.1 p.2 options)).overallScore ∧
      (generateSummary (inputs.map fun p => reviewTestFile p.1 p.2 options)).overallScore ≤ 100) ∧
    (∀ cs ∈ (generateSummary (inputs.map fun p => reviewTestFile p.1 p.2 options)).scoreBreakdown,
      0 ≤ cs.score ∧ cs.score ≤ 100) := by
  refine ⟨reviewTestFile_score_bounds content filename options,
    reviewTestFile_breakdown_scores content filename options, ?_, ?_⟩
  · have hfb : ∀ f ∈ inputs.map (fun p => reviewTestFile p.1 p.2 options),
        0 ≤ f.score ∧ f.score ≤ 100 := by
      intro f hf
      obtain ⟨p, _, rfl⟩ := List.mem_map.mp hf
      exact reviewTestFile_score_bounds p.1 p.2 options
    exact summaryOverall_bounds _ hfb
  · intro cs hcs
    simp only [generateSummary] at hcs
    obtain ⟨cat, _, rfl⟩ := List.mem_map.mp hcs
    have hfb : ∀ f ∈ inputs.map (fun p => reviewTestFile p.1 p.2 options),
        ∀ cs2 ∈ f.scoreBreakdown, 0 ≤ cs2.score ∧ cs2.score ≤ 100 := by
      intro f hf
      obtain ⟨p, _, rfl⟩ := List.mem_map.mp hf
      exact reviewTestFile_breakdown_scores p.1 p.2 options
    exact aggCatScore_bounds _ cat hfb

/-- C4: when rule selection leaves no rules, the reviewed file scores 100
overall, every category scores 100, and there are no violations. -/
theorem claim_C4 (content filename : String) (options : ReviewOptions)
    (h : filterRules options = []) :
    (reviewTestFile content filename options).score = 100 ∧
    (∀ cs ∈ (reviewTestFile content filename options).scoreBreakdown, cs.score = 100) ∧
    (reviewTestFile content filename options).violations = [] := by
  have h100 : ∀ cat, catScore [] [] cat = 100 := fun cat =>
    catScore_eval [] [] cat 0 0 100 rfl rfl (by norm_num [jsRound, Int.floor_eq_iff])
  refine ⟨?_, ?_, ?_⟩
  · have hs : (reviewTestFile content filename options).score =
        overallFromBreakdown (categoryOrder.map (buildCategoryScore
          (runRules (filterRules options) content filename) (filterRules options))) := rfl
    rw [hs, h]
    show overallFromBreakdown (categoryOrder.map (buildCategoryScore [] [])) = 100
    refine overallFromBreakdown_eval _
      [(100, 25), (100, 20), (100, 15), (100, 15), (100, 10), (100, 10), (100, 5)] 100
      ?_ (by norm_num [jsRound, Int.floor_eq_iff])
    simp only [categoryOrder, List.map, buildCategoryScore, List.map_cons]
    rw [h100 .theater, h100 .flaky, h100 .overMocking, h100 .assertions, h100 .isolation,
      h100 .maintainability, h100 .structureCat]
    rfl
  · intro cs hcs
    have hd : (reviewTestFile content filename options).scoreBreakdown =
        categoryOrder.map (buildCategoryScore
          (runRules (filterRules options) content filename) (filterRules options)) := rfl
    rw [hd, h] at hcs
    obtain ⟨cat, _, rfl⟩ := List.mem_map.mp hcs
    exact h100 cat
  · show runRules (filterRules options) content filename = []
    rw [h]
    rfl

/-- C4 (witness): the empty selection leaves no rules; the empty string file
scores 100 with no violations. -/
theorem claim_C4_witness :
    filterRules emptySelection = ([] : List QualityRule) ∧
    (reviewTestFile "" "empty.test.ts" emptySelection).score = 100 ∧
    (reviewTestFile "" "empty.test.ts" emptySelection).violations = [] :=
  ⟨rfl, (claim_C4 "" "empty.test.ts" emptySelection rfl).1,
    (claim_C4 "" "empty.test.ts" emptySelection rfl).2.2⟩

/-- C5: raising the minimum severity from info to warning never increases the
violation count, for any content, filename and other selection options. -/
theorem claim_C5 (content filename : String) (options : ReviewOptions) :
    ((reviewTestFile content filename { options with minSeverity := some .warning }).violations).length ≤
      ((reviewTestFile content filename { options with minSeverity := some .info }).violations).length := by
  have hW : (reviewTestFile content filename { options with minSeverity := some .warning }).violations =
      runRules ((filterRules { options with minSeverity := none }).filter
        (fun r => decide (severityIndex .warning ≤ severityIndex r.severity))) content filename := rfl
  have hI : (reviewTestFile content filename { options with minSeverity := some .info }).violations =
      runRules ((filterRules { options with minSeverity := none }).filter
        (fun r => decide (severityIndex .info ≤ severityIndex r.severity))) content filename := rfl
  rw [hW, hI]
  have hfI : (filterRules { options with minSeverity := none }).filter
      (fun r => decide (severityIndex .info ≤ severityIndex r.severity)) =
      filterRules { options with minSeverity := none } := by
    apply List.filter_eq_self.mpr
    intro r _
    simp [severityIndex]
  rw [hfI]
  exact (runRules_sublist (List.filter_sublist _) content filename).length_le

/-- C6: a selected rule whose detector throws on the reviewed file contributes
no violations to that review; the other selected rules' violations are exactly
preserved and the review still returns a ReviewedFile (the reviewer is a total
function). -/
theorem claim_C6 (content filename : String) (options : ReviewOptions)
    (pre post : List QualityRule) (bad : QualityRule)
    (hsel : filterRules options = pre ++ bad :: post)
    (hthrow : ∃ e, bad.detect content filename = Except.error e) :
    (reviewTestFile content filename options).violations =
      runRules pre content filename ++ runRules post content filename := by
  have hv : (reviewTestFile content filename options).violations =
      runRules (filterRules options) content filename := rfl
  rw [hv, hsel]
  obtain ⟨e, he⟩ := hthrow
  simp [runRules, List.flatMap_append, he]

/-- C6 (witness): a review whose only selected rule always throws produces the
empty violation list. -/
theorem claim_C6_witness :
    (reviewTestFile "x" "y" { rules := some [badRuleExample] }).violations =
      runRules [] "x" "y" ++ runRules [] "x" "y" :=
  claim_C6 "x" "y" { rules := some [badRuleExample] } [] [] badRuleExample rfl
    ⟨"detector crashed", rfl⟩

/-- C7: the topIssues list is the 10-element truncation of the full grouped
list; it has at most ten entries and is sorted by severity (error before
warning before info) then by descending count; the full grouped list carries
the exact occurrence count and catalog severity of each rule id, and contains
an entry for every catalog rule with at least one occurrence. -/
theorem claim_C7 (files : List ReviewedFile) :
    (generateSummary files).topIssues =
      (summaryTopIssuesFull (allViolationsOf files)).take 10 ∧
    (generateSummary files).topIssues.length ≤ 10 ∧
    List.Pairwise (fun a b => topIssueLE a b = true) (generateSummary files).topIssues ∧
    (∀ e ∈ summaryTopIssuesFull (allViolationsOf files),
      e.count = violationCountFor (allViolationsOf files) e.rule ∧
      ∃ r ∈ allRules, r.id = e.rule ∧ r.severity = e.severity) ∧
    (∀ r ∈ allRules, violationCountFor (allViolationsOf files) r.id ≠ 0 →
      ∃ e ∈ summaryTopIssuesFull (allViolationsOf files), e.rule = r.id) := by
  obtain ⟨hp, hcount, hclose⟩ := groupViolationCounts_spec (allViolationsOf files)
  have hperm : (summaryTopIssuesFull (allViolationsOf files)).Perm
      (groupViolationCounts (allViolationsOf files)) := List.mergeSort_perm _ _
  have hsorted : List.Pairwise (fun a b => topIssueLE a b = true)
      (summaryTopIssuesFull (allViolationsOf files)) :=
    List.sorted_mergeSort topIssueLE_trans topIssueLE_total _
  have htake : (generateSummary files).topIssues =
      (summaryTopIssuesFull (allViolationsOf files)).take 10 := rfl
  refine ⟨rfl, ?_, ?_, ?_, ?_⟩
  · rw [htake, List.length_take]
    exact min_le_left _ _
  · rw [htake]
    exact List.Pairwise.sublist (List.take_sublist _ _) hsorted
  · intro e he
    have he2 : e ∈ groupViolationCounts (allViolationsOf files) := hperm.mem_iff.mp he
    obtain ⟨hcnt, r, hr, hs⟩ := hcount e he2
    exact ⟨hcnt, r, List.mem_of_find?_eq_some hr, findRuleFirst_eq_id hr, hs⟩
  · intro r hr hcnt
    have hsome : (findRuleFirst r.id).isSome := by
      apply List.find?_isSome.mpr
      exact ⟨r, hr, by simp⟩
    obtain ⟨e, he, hbe⟩ := List.any_eq_true.mp (hclose r.id hcnt hsome)
    exact ⟨e, hperm.mem_iff.mpr he, by simpa using hbe⟩

/-- C8: the excessive-mocking rule fires exactly once precisely when the total
mock registration count is above 5 and above twice the expect-call count; in
particular a file with six jest.mock registrations and one expect fires once. -/
theorem claim_C8 :
    (∀ content filename : String, ∃ vs,
      excessiveMockingDetect content filename = Except.ok vs ∧
      (vs.length = 1 ↔ (5 < totalMockCount content.data ∧
        2 * expectCallCount content.data < totalMockCount content.data)) ∧
      vs.length ≤ 1) ∧
    (∃ vs, excessiveMockingDetect scenarioEContent "mocked.test.ts" = Except.ok vs ∧
      vs.length = 1 ∧ totalMockCount scenarioEContent.data = 6 ∧
      expectCallCount scenarioEContent.data = 1) := by
  constructor
  · intro content filename
    refine ⟨_, rfl, ?_, ?_⟩
    · constructor
      · intro h1
        split at h1
        · next hb =>
          simp only [Bool.and_eq_true, decide_eq_true_eq] at hb
          exact ⟨hb.1, by omega⟩
        · exact absurd h1 (by simp)
      · intro hc
        obtain ⟨hc1, hc2⟩ := hc
        split
        · rfl
        · next hb =>
          simp only [Bool.and_eq_true, decide_eq_true_eq, not_and] at hb
          exact absurd (show expectCallCount content.data * 2 < totalMockCount content.data by omega)
            (hb hc1)
    · split
      · simp
      · simp
  · exact ⟨_, rfl, by decide, by decide, by decide⟩

/-- C9: an empty includedCategories or excludedCategories list is treated as if
the option were absent, filtering out no rules. -/
theorem claim_C9 (options : ReviewOptions) :
    filterRules { options with includedCategories := some [] } =
      filterRules { options with includedCategories := none } ∧
    filterRules { options with excludedCategories := some [] } =
      filterRules { options with excludedCategories := none } :=
  ⟨rfl, rfl⟩

/-- C10: every aggregate category score of a summary has maxDeduction and
actualDeduction hard-coded to zero. -/
theorem claim_C10 (files : List ReviewedFile) (cs : CategoryScore)
    (h : cs ∈ (generateSummary files).scoreBreakdown) :
    cs.maxDeduction = 0 ∧ cs.actualDeduction = 0 := by
  simp only [generateSummary] at h
  obtain ⟨cat, _, rfl⟩ := List.mem_map.mp h
  exact ⟨rfl, rfl⟩

/-- C10 (witness): the first aggregate category record of the empty-list
summary has zero deduction fields. -/
theorem claim_C10_witness :
    ((generateSummary []).scoreBreakdown.get ⟨0, by decide⟩).maxDeduction = 0 ∧
    ((generateSummary []).scoreBreakdown.get ⟨0, by decide⟩).actualDeduction = 0 :=
  claim_C10 [] _ (List.get_mem _ _ _)

end AgentQA
